import Mathlib

/-!
A shallow embedding of the gvm stack virtual machine (Go sources:
`common/types.go`, `heap/heap.go`, `vm/vm.go`, `vm/opcodes.go`, the
system-call dispatcher, and the assembler code generator / label
recording), together with theorems settling the specification claims.

Modelling conventions, fixed once for the whole file:
* Machine bytes are `Nat` values (kept below 256 by the write helpers);
  `uint32` payloads are `Nat` below `2^32`; `int32` views use two's
  complement via `int32OfRaw`.
* Go `map` values are association lists; Go map iteration order (used by
  the interpreter only in the RET signature scan) is modelled
  deterministically as list order.
* `log.Fatal`, Go panics (out-of-range indexing) and `error` returns that
  the interpreter escalates with `log.Fatal` all end execution; they are
  modelled as `Except.error` with the corresponding message.
* `mmap` is modelled as a deterministic fresh-address allocator returning
  zeroed, page-rounded regions (page size 4096, as on linux/amd64);
  `unsafe.Sizeof(uintptr(0))` is 8.
* Go float32 comparisons (`==`, `<`, `<=`) are modelled exactly on the
  IEEE-754 bit patterns; float32 arithmetic with rounding (`+ - * /`) is
  kept abstract as a `FloatArith` parameter, since no claim depends on
  rounding behaviour.
* Go `for` loops over bytecode are modelled with explicit fuel (bounded
  by the bytecode length), so that every definition evaluates by kernel
  reduction.
-/

namespace GVM

/-! ## Value kinds (common/types.go) -/

/-- Byte code of `ValueInt32`. -/
def KInt32 : Nat := 0
/-- Byte code of `ValueFloat32`. -/
def KFloat32 : Nat := 1
/-- Byte code of `ValuePtr`. -/
def KPtr : Nat := 2
/-- Byte code of `ValueString`. -/
def KString : Nat := 3
/-- Byte code of `ValueArray`. -/
def KArray : Nat := 4
/-- Byte code of `ValueVoid`. -/
def KVoid : Nat := 5
/-- Byte code of `ValueStruct`. -/
def KStruct : Nat := 6
/-- Byte code of `ValueByte`. -/
def KByte : Nat := 7

/-- `Value` from common/types.go: a kind tag, a raw 32-bit payload and a
pointer word.  The kind is kept as the raw byte it is in Go. -/
structure Value where
  Kind : Nat
  Raw : Nat := 0
  Ptr : Nat := 0
deriving DecidableEq, Repr

/-- Reduce an integer to its `uint32` bit pattern (Go conversion
`uint32(val)` on an `int32`). -/
def u32 (n : Int) : Nat := (n % (2 ^ 32)).toNat

/-- Read a `uint32` bit pattern as an `int32` (two's complement). -/
def int32OfRaw (r : Nat) : Int :=
  if r % 2 ^ 32 < 2 ^ 31 then ((r % 2 ^ 32 : Nat) : Int)
  else ((r % 2 ^ 32 : Nat) : Int) - 2 ^ 32

/-- `Int32Value` constructor. -/
def Int32Value (val : Int) : Value := ⟨KInt32, u32 val, 0⟩

/-- `Float32Value`; the argument is the IEEE-754 bit pattern
(`math.Float32bits`). -/
def Float32Value (bits : Nat) : Value := ⟨KFloat32, bits % 2 ^ 32, 0⟩

/-- `ByteValue` constructor. -/
def ByteValue (val : Nat) : Value := ⟨KByte, val % 256, 0⟩

/-- `PtrValue` constructor. -/
def PtrValue (ptr : Nat) : Value := ⟨KPtr, 0, ptr⟩

/-- `Value.AsInt32`, which is fatal on a kind mismatch. -/
def Value.asInt32 (v : Value) : Except String Int :=
  if v.Kind = KInt32 then .ok (int32OfRaw v.Raw)
  else .error "Value is not int32"

/-- `Value.AsPtr`, fatal on a kind mismatch. -/
def Value.asPtr (v : Value) : Except String Nat :=
  if v.Kind = KPtr then .ok v.Ptr
  else .error "Value is not ptr"

/-- `Value.AsByte`, fatal on a kind mismatch (`v.Raw & 0xFF`). -/
def Value.asByte (v : Value) : Except String Nat :=
  if v.Kind = KByte then .ok (v.Raw % 256)
  else .error "Value is not byte"

/-! ## Float32 comparisons on bit patterns

Go compares `float32` values with the IEEE-754 relations.  On bit
patterns these are: every comparison with a NaN is false, and otherwise
the order is the sign-magnitude order of the bit patterns (so that
`+0.0 == -0.0`). -/

/-- A bit pattern is a NaN when the exponent is all ones and the
mantissa is nonzero. -/
def f32IsNaN (b : Nat) : Bool :=
  (b / 2 ^ 23) % 2 ^ 8 = 255 && b % 2 ^ 23 ≠ 0

/-- Order key of a non-NaN float32 bit pattern: magnitude, negated for
the sign bit; both zeros map to 0. -/
def f32Key (b : Nat) : Int :=
  let mag : Nat := b % 2 ^ 31
  if b % 2 ^ 32 / 2 ^ 31 = 0 then (mag : Int) else -(mag : Int)

/-- Go `==` on float32 bit patterns. -/
def f32eq (a b : Nat) : Bool :=
  !f32IsNaN a && !f32IsNaN b && f32Key a = f32Key b

/-- Go `<` on float32 bit patterns. -/
def f32lt (a b : Nat) : Bool :=
  !f32IsNaN a && !f32IsNaN b && f32Key a < f32Key b

/-- Go `<=` on float32 bit patterns (IEEE: `a <= b` iff `a < b` or
`a == b`). -/
def f32le (a b : Nat) : Bool := f32lt a b || f32eq a b

/-- `Equals` from common/types.go: fatal on a kind mismatch, defined for
Float32 and Int32 only, fatal otherwise. -/
def valueEquals (v1 v2 : Value) : Except String Bool :=
  if v1.Kind ≠ v2.Kind then .error "type mismatch for comparison"
  else if v1.Kind = KFloat32 then .ok (f32eq v1.Raw v2.Raw)
  else if v1.Kind = KInt32 then .ok (decide (int32OfRaw v1.Raw = int32OfRaw v2.Raw))
  else .error "Unuspported types"

/-- `Value.Lesser` from common/types.go. -/
def valueLesser (v1 v2 : Value) : Except String Bool :=
  if v1.Kind ≠ v2.Kind then .error "Type mismatch for comaprison"
  else if v1.Kind = KFloat32 then .ok (f32lt v1.Raw v2.Raw)
  else if v1.Kind = KInt32 then .ok (decide (int32OfRaw v1.Raw < int32OfRaw v2.Raw))
  else .error "Unsupported types"

/-- `Value.LesserOrEqual` from common/types.go. -/
def valueLesserOrEqual (v1 v2 : Value) : Except String Bool :=
  if v1.Kind ≠ v2.Kind then .error "Type mismatch for comaprison"
  else if v1.Kind = KFloat32 then .ok (f32le v1.Raw v2.Raw)
  else if v1.Kind = KInt32 then .ok (decide (int32OfRaw v1.Raw ≤ int32OfRaw v2.Raw))
  else .error "Unsupported types"

/-! ## Raw byte buffers -/

/-- A heap region body / the bytecode stream: a list of bytes. -/
abbrev Bytes := List Nat

/-- Read the byte at index `i` (Go indexing; reads that the source
bounds-checks never see the default). -/
def readByte (m : Bytes) (i : Nat) : Nat := m.getD i 0

/-- The sub-buffer `m[off : off+n]` (Go slicing, used only after a
bounds check in the source). -/
def readBytes (m : Bytes) (off n : Nat) : Bytes := (m.drop off).take n

/-- Combine a little-endian byte list into a number. -/
def leVal : Bytes → Nat
  | [] => 0
  | b :: bs => b % 256 + 256 * leVal bs

/-- The `n` little-endian bytes of `v` (how x86 lays out the raw
4-byte / 8-byte stores of heap.go in memory). -/
def leBytes : Nat → Nat → Bytes
  | 0, _ => []
  | n + 1, v => v % 256 :: leBytes n (v / 256)

/-- Read `n` little-endian bytes at `off` as a number. -/
def readLE (m : Bytes) (off n : Nat) : Nat := leVal (readBytes m off n)

/-- Overwrite `m[off : off+src.length]` with `src`.  All raw stores in
the source happen inside the mmapped allocation; a store that would
leave the buffer is modelled as a no-op (never exercised by the heap
operations, which bounds-check first). -/
def writeBytes (m : Bytes) (off : Nat) (src : Bytes) : Bytes :=
  if off + src.length ≤ m.length then
    m.take off ++ src ++ m.drop (off + src.length)
  else m

/-- Write one byte (`mem[i] = b`). -/
def writeByte (m : Bytes) (i b : Nat) : Bytes := writeBytes m i [b % 256]

/-- Write `n` little-endian bytes of `v` at `off`. -/
def writeLE (m : Bytes) (off n v : Nat) : Bytes := writeBytes m off (leBytes n v)

/-! ## Heap (heap/heap.go)

A region is the byte buffer of one mmap allocation.  `AllocateStruct`
serialises the Go `StructType` record into the first
`unsafe.Sizeof(StructType{})` payload bytes by a raw pointer store; that
record contains Go-runtime pointers, so its byte image is not
meaningful.  It is modelled as a `desc` annotation carried by the
region, occupying `structDescSize` bytes of the payload (the field data
starts after them, exactly as in the source). -/

/-- `StructField` from common/types.go (names are the raw byte strings
of the bytecode; the source field `Type` is spelled `Typ` because `Type`
is a Lean keyword). -/
structure StructFieldM where
  Name : Bytes
  Typ : Nat
  Offset : Nat
  ArrayType : Option Nat := none
deriving DecidableEq, Repr

/-- `StructType` from common/types.go (the `Methods` table is always
empty in the interpreter and is omitted). -/
structure StructTypeM where
  Name : Bytes
  Fields : List StructFieldM
  Size : Nat
deriving DecidableEq, Repr

/-- `unsafe.Sizeof(StructType{})` on linux/amd64: string header 16 +
slice header 24 + uint 8 + map header 8. -/
def structDescSize : Nat := 56

/-- One heap region: its bytes, plus the struct-descriptor annotation
written by `AllocateStruct` (see the section comment). -/
structure Region where
  bytes : Bytes
  desc : Option StructTypeM := none
deriving DecidableEq, Repr

/-- The heap: the `Memory map[uintptr][]byte` of heap.go as an
association list. -/
structure Heap where
  Memory : List (Nat × Region)
deriving DecidableEq, Repr

/-- Map lookup `heap.Memory[ptr]`. -/
def Heap.find (h : Heap) (p : Nat) : Option Region :=
  (h.Memory.find? (fun e => e.1 = p)).map (fun e => e.2)

/-- Map assignment on an existing key: replace the entry in place. -/
def Heap.update (h : Heap) (p : Nat) (r : Region) : Heap :=
  ⟨h.Memory.map (fun e => if e.1 = p then (p, r) else e)⟩

/-- Map assignment on a fresh key: append the entry. -/
def Heap.insert (h : Heap) (p : Nat) (r : Region) : Heap :=
  ⟨h.Memory ++ [(p, r)]⟩

/-- Map deletion (`delete(heap.Memory, ptr)`). -/
def Heap.erase (h : Heap) (p : Nat) : Heap :=
  ⟨h.Memory.filter (fun e => ¬ e.1 = p)⟩

/-- `syscall.Getpagesize()` on linux/amd64. -/
def pageSize : Nat := 4096

/-- Deterministic model of the address `mmap` hands out: one page past
the largest live address (fresh, and never colliding with a live
region, whose length is at most its page count). -/
def Heap.freshAddr (h : Heap) : Nat :=
  (h.Memory.map (fun e => e.1 + e.2.bytes.length)).foldr max 0 + pageSize

/-- `Heap.Allocate`: round the size up to whole pages and mmap a zeroed
region (an mmap of zero pages fails). -/
def Heap.Allocate (h : Heap) (size : Nat) : Except String (Nat × Heap) :=
  let pages := (size + pageSize - 1) / pageSize
  if pages = 0 then .error "mmap failed"
  else
    let ptr := h.freshAddr
    .ok (ptr, h.insert ptr ⟨List.replicate (pages * pageSize) 0, none⟩)

/-- `Heap.Free`. -/
def Heap.Free (h : Heap) (p : Nat) : Except String Heap :=
  match h.find p with
  | none => .error "Failed to free memory at address"
  | some _ => .ok (h.erase p)

/-- `Heap.StoreValue`.  Faithful to the source order: the tag byte is
written at offset 0 **before** the bounds check, so the bounds-failing
path returns an error on an already-mutated region.  The result pairs
the (possibly mutated) heap with `some` error message or `none` on
success. -/
def Heap.StoreValue (h : Heap) (p : Nat) (value : Value) : Heap × Option String :=
  match h.find p with
  | none => (h, some "invalid memory address")
  | some r =>
    let m := writeByte r.bytes 0 value.Kind
    let h1 := h.update p { r with bytes := m }
    let requiredSize : Nat :=
      if value.Kind = KInt32 ∨ value.Kind = KFloat32 then 5
      else if value.Kind = KPtr then 1 + 8
      else 0
    if m.length < requiredSize then (h1, some "Memory access out of bounds")
    else
      let m2 :=
        if value.Kind = KInt32 then writeLE m 1 4 value.Raw
        else if value.Kind = KFloat32 then writeLE m 1 4 value.Raw
        else if value.Kind = KPtr then writeLE m 1 8 value.Ptr
        else m
      (h.update p { r with bytes := m2 }, none)

/-- `Heap.LoadValue`. -/
def Heap.LoadValue (h : Heap) (p : Nat) : Except String Value :=
  match h.find p with
  | none => .error "Invalid memory address"
  | some r =>
    let m := r.bytes
    if m.length < 1 then .error "memory access out of bounds"
    else
      let kind := readByte m 0
      if kind = KInt32 then
        if m.length < 5 then .error "memory access out of bounds"
        else .ok ⟨kind, readLE m 1 4, 0⟩
      else if kind = KFloat32 then
        if m.length < 5 then .error "memory access out of bounds"
        else .ok ⟨kind, readLE m 1 4, 0⟩
      else if kind = KPtr then
        if m.length < 1 + 8 then .error "memory access out of bounds"
        else .ok ⟨kind, 0, readLE m 1 8⟩
      else .ok ⟨kind, 0, 0⟩

/-- `Heap.AllocateString`: tag byte, 4-byte length, then the bytes. -/
def Heap.AllocateString (h : Heap) (s : Bytes) : Except String (Nat × Heap) := do
  let (p, h1) ← h.Allocate (5 + s.length)
  match h1.find p with
  | none => .error "unreachable: fresh region missing"
  | some r =>
    let m := writeByte r.bytes 0 KString
    let m := writeLE m 1 4 s.length
    let m := writeBytes m 5 s
    .ok (p, h1.update p { r with bytes := m })

/-- `Heap.LoadString`. -/
def Heap.LoadString (h : Heap) (p : Nat) : Except String Bytes :=
  match h.find p with
  | none => .error "Invalid memory address"
  | some r =>
    let m := r.bytes
    if readByte m 0 ≠ KString then .error "Not a string value"
    else
      let length := int32OfRaw (readLE m 1 4)
      if (m.length : Int) < 5 + length then .error "memory access out of bounds"
      else .ok (readBytes m 5 length.toNat)

/-- `GetElementSize`; the default branch is `log.Fatal`, modelled as
`none`. -/
def GetElementSize (kind : Nat) : Option Nat :=
  if kind = KFloat32 ∨ kind = KInt32 then some 4
  else if kind = KPtr ∨ kind = KString ∨ kind = KArray ∨ kind = KStruct then some 8
  else none

/-- `Heap.AllocateArray`: tag, element-kind byte, 4-byte length, zeroed
element slots.  A negative length makes the Go size computation wrap to
an enormous `uintptr` and the mmap fail; that failure is modelled
directly. -/
def Heap.AllocateArray (h : Heap) (elementKind : Nat) (length : Int) :
    Except String (Nat × Heap) := do
  match GetElementSize elementKind with
  | none => .error "Unsupported array element type"
  | some elementSize =>
    if length < 0 then .error "mmap failed"
    else
      let (p, h1) ← h.Allocate (1 + 1 + 4 + elementSize * length.toNat)
      match h1.find p with
      | none => .error "unreachable: fresh region missing"
      | some r =>
        let m := writeByte r.bytes 0 KArray
        let m := writeByte m 1 elementKind
        let m := writeLE m 2 4 (u32 length)
        .ok (p, h1.update p { r with bytes := m })

/-- `Heap.SetArrayElement`.  Every check precedes the element store, so
every error path leaves the heap unchanged.  The `log.Fatal` inside
`GetElementSize` (element kinds outside the supported set) is the
second error message. -/
def Heap.SetArrayElement (h : Heap) (arrayPtr : Nat) (index : Int) (value : Value) :
    Heap × Option String :=
  match h.find arrayPtr with
  | none => (h, some "Invalid memory access")
  | some r =>
    let m := r.bytes
    if readByte m 0 ≠ KArray then (h, some "Not an array")
    else
      let elementKind := readByte m 1
      let length := int32OfRaw (readLE m 2 4)
      if index < 0 ∨ length ≤ index then (h, some "Array index out of bounds!")
      else if elementKind ≠ value.Kind then (h, some "Type mismatch")
      else
        match GetElementSize elementKind with
        | none => (h, some "Unsupported array element type")
        | some elementSize =>
          let elementOff := 6 + index.toNat * elementSize
          if elementKind = KInt32 ∨ elementKind = KFloat32 then
            (h.update arrayPtr { r with bytes := writeLE m elementOff 4 value.Raw }, none)
          else if elementKind = KPtr ∨ elementKind = KString then
            (h.update arrayPtr { r with bytes := writeLE m elementOff 8 value.Ptr }, none)
          else (h, some "Unsupported element type")

/-- `Heap.GetArrayElement`. -/
def Heap.GetArrayElement (h : Heap) (arrayPtr : Nat) (index : Int) :
    Except String Value :=
  match h.find arrayPtr with
  | none => .error "Invalid memory access"
  | some r =>
    let m := r.bytes
    if readByte m 0 ≠ KArray then .error "Not an array"
    else
      let elementKind := readByte m 1
      let length := int32OfRaw (readLE m 2 4)
      if index < 0 ∨ length ≤ index then .error "Array index out of bounds"
      else
        match GetElementSize elementKind with
        | none => .error "Unsupported array element type"
        | some elementSize =>
          let elementOff := 6 + index.toNat * elementSize
          if elementKind = KInt32 ∨ elementKind = KFloat32 then
            .ok ⟨elementKind, readLE m elementOff 4, 0⟩
          else if elementKind = KPtr ∨ elementKind = KString then
            .ok ⟨elementKind, 0, readLE m elementOff 8⟩
          else .error "Unsupported element type"

/-- `Heap.AllocateStruct`: tag byte plus the serialised descriptor (see
the section comment) ahead of the field payload. -/
def Heap.AllocateStruct (h : Heap) (str : StructTypeM) : Except String (Nat × Heap) := do
  let (p, h1) ← h.Allocate (1 + str.Size)
  match h1.find p with
  | none => .error "Could not allocate memory properly"
  | some r =>
    let m := writeByte r.bytes 0 KStruct
    .ok (p, h1.update p { r with bytes := m, desc := some str })

/-- Scan a field list for a name (the `for ... range` in the struct
accessors). -/
def findField : List StructFieldM → Bytes → Option StructFieldM
  | [], _ => none
  | f :: fs, n => if f.Name = n then some f else findField fs n

/-- `Heap.GetStructField`.  Reading the descriptor back out of a region
that `AllocateStruct` did not create reinterprets arbitrary bytes as a
Go record (undefined behaviour in the source); modelled as an error. -/
def Heap.GetStructField (h : Heap) (structPtr : Nat) (fieldName : Bytes) :
    Except String Value :=
  match h.find structPtr with
  | none => .error "Invalid memory address"
  | some r =>
    if readByte r.bytes 0 ≠ KStruct then .error "Not a struct"
    else
      match r.desc with
      | none => .error "undefined behaviour: region has no serialised descriptor"
      | some structType =>
        match findField structType.Fields fieldName with
        | none => .error "Field is not found on struct"
        | some field =>
          let fieldOff := 1 + structDescSize + field.Offset
          if field.Typ = KFloat32 ∨ field.Typ = KInt32 then
            .ok ⟨field.Typ, readLE r.bytes fieldOff 4, 0⟩
          else if field.Typ = KPtr ∨ field.Typ = KString ∨ field.Typ = KStruct ∨
              field.Typ = KArray then
            .ok ⟨field.Typ, 0, readLE r.bytes fieldOff 8⟩
          else .error "Unsupported field type"

/-- `Heap.SetStructureField`. -/
def Heap.SetStructureField (h : Heap) (structPtr : Nat) (fieldName : Bytes)
    (value : Value) : Heap × Option String :=
  match h.find structPtr with
  | none => (h, some "Invalid memory address")
  | some r =>
    if readByte r.bytes 0 ≠ KStruct then (h, some "Not a struct")
    else
      match r.desc with
      | none => (h, some "undefined behaviour: region has no serialised descriptor")
      | some structType =>
        match findField structType.Fields fieldName with
        | none => (h, some "Field not found in struct")
        | some field =>
          if field.Typ ≠ value.Kind then (h, some "Type mismatch")
          else
            let fieldOff := 1 + structDescSize + field.Offset
            if field.Typ = KFloat32 ∨ field.Typ = KInt32 then
              (h.update structPtr { r with bytes := writeLE r.bytes fieldOff 4 value.Raw }, none)
            else if field.Typ = KPtr ∨ field.Typ = KString ∨ field.Typ = KStruct ∨
                field.Typ = KArray then
              (h.update structPtr { r with bytes := writeLE r.bytes fieldOff 8 value.Ptr }, none)
            else (h, some "Unsupported type")

/-! ## VM state (vm/vm.go) -/

/-- Association-list model of a Go map: lookup. -/
def lookupMap {α β : Type} [DecidableEq α] (m : List (α × β)) (k : α) : Option β :=
  (m.find? (fun e => e.1 = k)).map (fun e => e.2)

/-- Association-list model of a Go map: assignment (replace the entry if
the key is present, append otherwise). -/
def insertMap {α β : Type} [DecidableEq α] (m : List (α × β)) (k : α) (v : β) :
    List (α × β) :=
  if (m.find? (fun e => e.1 = k)).isSome then
    m.map (fun e => if e.1 = k then (k, v) else e)
  else m ++ [(k, v)]

/-- `FunctionSignature` from vm/vm.go. -/
structure FunctionSignature where
  Address : Nat
  ParamCount : Nat
  ReturnType : Nat
  isMain : Bool := false
  ReturnStructName : Bytes := []
deriving DecidableEq, Repr

/-- `StackFrame` from vm/vm.go: locals map, return address, operand
stack (`LocalStack`, top at the end as in the Go slice). -/
structure StackFrame where
  Locals : List (Nat × Value) := []
  ReturnAddress : Nat
  LocalStack : List Value := []
deriving DecidableEq, Repr

/-- The sentinel return address `0xFFFFFFFF` installed in the outermost
frame. -/
def sentinel : Nat := 4294967295

/-- The `VM` struct, extended with an explicit model of standard input
and output for the byte system calls. -/
structure VMState where
  Ip : Nat
  Bytecode : Bytes
  Running : Bool := true
  CallStack : List StackFrame := []
  Heap : Heap := ⟨[]⟩
  Functions : List (Nat × FunctionSignature) := []
  Structs : List (Bytes × StructTypeM) := []
  Input : Bytes := []
  Output : Bytes := []
deriving DecidableEq, Repr

/-- `vm.push`: fatal when the call stack is empty, else append to the
top frame's operand stack. -/
def VMState.push (s : VMState) (v : Value) : Except String VMState :=
  match s.CallStack.getLast? with
  | none => .error "call stack empty"
  | some f =>
    .ok { s with CallStack :=
            s.CallStack.dropLast ++ [{ f with LocalStack := f.LocalStack ++ [v] }] }

/-- `vm.pop`: fatal when the call stack or the top frame's operand
stack is empty. -/
def VMState.pop (s : VMState) : Except String (Value × VMState) :=
  match s.CallStack.getLast? with
  | none => .error "call stack empty"
  | some f =>
    match f.LocalStack.getLast? with
    | none => .error "local stack empty"
    | some v =>
      .ok (v, { s with CallStack :=
                  s.CallStack.dropLast ++ [{ f with LocalStack := f.LocalStack.dropLast }] })

/-- Pop `n` values (the argument loop of CALL); the list is in pop
order. -/
def VMState.popN (s : VMState) : Nat → Except String (List Value × VMState)
  | 0 => .ok ([], s)
  | n + 1 => do
    let (v, s1) ← s.pop
    let (vs, s2) ← s1.popN n
    .ok (v :: vs, s2)

/-- Rewrite the top frame in place (used by STORE; the call stack is
nonempty whenever this runs in the source). -/
def VMState.modifyLast (s : VMState) (g : StackFrame → StackFrame) :
    Except String VMState :=
  match s.CallStack.getLast? with
  | none => .error "call stack empty"
  | some f => .ok { s with CallStack := s.CallStack.dropLast ++ [g f] }

/-- `vm.getByte`; running off the bytecode is a Go index panic. -/
def VMState.getByte (s : VMState) : Except String (Nat × VMState) :=
  if s.Ip < s.Bytecode.length then
    .ok (readByte s.Bytecode s.Ip, { s with Ip := s.Ip + 1 })
  else .error "index out of range"

/-- `vm.extractUInt16` (big-endian). -/
def VMState.extractUInt16 (s : VMState) : Except String (Nat × VMState) :=
  if s.Ip + 2 ≤ s.Bytecode.length then
    .ok (readByte s.Bytecode s.Ip * 256 + readByte s.Bytecode (s.Ip + 1),
         { s with Ip := s.Ip + 2 })
  else .error "index out of range"

/-- `vm.extractUInt32` (big-endian). -/
def VMState.extractUInt32 (s : VMState) : Except String (Nat × VMState) :=
  if s.Ip + 4 ≤ s.Bytecode.length then
    .ok (((readByte s.Bytecode s.Ip * 256 + readByte s.Bytecode (s.Ip + 1)) * 256 +
           readByte s.Bytecode (s.Ip + 2)) * 256 + readByte s.Bytecode (s.Ip + 3),
         { s with Ip := s.Ip + 4 })
  else .error "index out of range"

/-- Index of the first zero byte of a buffer. -/
def scanZ : Bytes → Option Nat
  | [] => none
  | b :: bs => if b = 0 then some 0 else (scanZ bs).map (fun n => n + 1)

/-- `vm.extractString`: the bytes up to the next zero byte; the
unguarded Go scan panics past the end of the bytecode. -/
def VMState.extractStringZ (s : VMState) : Except String (Bytes × VMState) :=
  match scanZ (s.Bytecode.drop s.Ip) with
  | none => .error "index out of range"
  | some n => .ok (readBytes s.Bytecode s.Ip n, { s with Ip := s.Ip + n + 1 })

/-- Abstract float32 arithmetic on bit patterns (see the module
comment): the four rounding operations of FADD/FSUB/FMUL/FDIV. -/
structure FloatArith where
  fadd : Nat → Nat → Nat
  fsub : Nat → Nat → Nat
  fmul : Nat → Nat → Nat
  fdiv : Nat → Nat → Nat

/-! ## System calls (vm/syscall.go) -/

/-- `executeSystemCall`: 0 STR_LEN, 1 STR_CAT, 2 STR_EQUALS,
3 WRITE_BYTE, 4 READ_BYTE; other ids fall through the switch as
no-ops. -/
def VMState.executeSystemCall (s : VMState) (call : Nat) : Except String VMState :=
  if call = 0 then do
    let (v, s) ← s.pop
    let p ← v.asPtr
    let str ← s.Heap.LoadString p
    s.push (Int32Value str.length)
  else if call = 1 then do
    -- STR_CAT: str1 is the first pop, str2 the second; the new string
    -- is str1 ++ str2.
    let (v1, s) ← s.pop
    let str1Ptr ← v1.asPtr
    let (v2, s) ← s.pop
    let str2Ptr ← v2.asPtr
    let str1 ← s.Heap.LoadString str1Ptr
    let str2 ← s.Heap.LoadString str2Ptr
    let (p, h) ← s.Heap.AllocateString (str1 ++ str2)
    VMState.push { s with Heap := h } (PtrValue p)
  else if call = 2 then do
    let (v1, s) ← s.pop
    let str1Ptr ← v1.asPtr
    let (v2, s) ← s.pop
    let str2Ptr ← v2.asPtr
    let str1 ← s.Heap.LoadString str1Ptr
    let str2 ← s.Heap.LoadString str2Ptr
    if str1 = str2 then s.push (Int32Value 1) else s.push (Int32Value 0)
  else if call = 3 then do
    let (value, s) ← s.pop
    if value.Kind = KByte then
      .ok { s with Output := s.Output ++ [value.Raw % 256] }
    else if value.Kind = KInt32 then
      -- byte(value.AsInt32() & 0xFF) is the low byte of the raw word
      .ok { s with Output := s.Output ++ [value.Raw % 256] }
    else .error "WRITE_BYTE expects a byte or int32 value"
  else if call = 4 then
    match s.Input with
    | [] => .error "read from stdin failed"
    | b :: rest => VMState.push { s with Input := rest } (ByteValue b)
  else .ok s

/-! ## The dispatcher (vm.execute)

One case per opcode byte, in the order of vm/opcodes.go:
0 HALT, 1 PUSH, 2 POP, 3 IADD, 4 ISUB, 5 IMUL, 6 IDIV, 7 FADD, 8 FSUB,
9 FMUL, 10 FDIV, 11 JMP, 12 IJNE, 13 IJE, 14 FJNE, 15 FJE, 16 EQ,
17 NE, 18 LT, 19 GT, 20 GE, 21 LE, 22 LOAD, 23 STORE, 24 CALL, 25 RET,
26 RETV, 27 ALLOC, 28 FREE, 29 LOADH, 30 STOREH, 31 DUP, 32 STRALLOC,
33 SYSCALL, 34 NEWARR, 35 LDELEM, 36 STELEM, 37 FUNC, 41 NEWSTRUCT,
42 FLDGET, 43 STFIELD.  Bytes without a case (38 FUNC_NORMAL,
39 FUNC_MAIN, 40 DEFSTRUCT, and anything unknown) fall through the Go
switch as no-ops. -/

/-- The per-opcode dispatcher.  `s` is the state after the opcode byte
was fetched (so `s.Ip` points at the first operand byte). -/
def execute (fa : FloatArith) (s : VMState) (opcode : Nat) : Except String VMState :=
  match opcode with
  | 0 => .ok { s with Running := false }
  | 1 => do
    let (typeTag, s) ← s.getByte
    if typeTag = KInt32 then do
      let (bits, s) ← s.extractUInt32
      s.push ⟨KInt32, bits, 0⟩
    else if typeTag = KFloat32 then do
      let (bits, s) ← s.extractUInt32
      s.push ⟨KFloat32, bits, 0⟩
    else if typeTag = KByte then do
      let (b, s) ← s.getByte
      s.push ⟨KByte, b, 0⟩
    else .error "Unsupported type in PUSH"
  | 2 => do
    let (_, s) ← s.pop
    .ok s
  | 3 => do
    let (v1, s) ← s.pop
    let (v2, s) ← s.pop
    if v1.Kind ≠ KInt32 ∨ v2.Kind ≠ KInt32 then .error "Values need to be int32"
    else s.push (Int32Value (int32OfRaw v1.Raw + int32OfRaw v2.Raw))
  | 4 => do
    -- ISUB computes v1 - v2: first popped minus second popped.
    let (v1, s) ← s.pop
    let (v2, s) ← s.pop
    if v1.Kind ≠ KInt32 ∨ v2.Kind ≠ KInt32 then .error "Values need to be int32"
    else s.push (Int32Value (int32OfRaw v1.Raw - int32OfRaw v2.Raw))
  | 5 => do
    let (v1, s) ← s.pop
    let (v2, s) ← s.pop
    if v1.Kind ≠ KInt32 ∨ v2.Kind ≠ KInt32 then .error "Values need to be int32"
    else s.push (Int32Value (int32OfRaw v1.Raw * int32OfRaw v2.Raw))
  | 6 => do
    -- IDIV: fatal when the first-popped divisor is zero; the quotient
    -- v2 / v1 is truncated division (Go), hence Int.tdiv.
    let (v1, s) ← s.pop
    let (v2, s) ← s.pop
    if v1.Kind ≠ KInt32 ∨ v2.Kind ≠ KInt32 then .error "Values need to be int32"
    else if int32OfRaw v1.Raw = 0 then .error "Division by zero"
    else s.push (Int32Value (Int.tdiv (int32OfRaw v2.Raw) (int32OfRaw v1.Raw)))
  | 7 => do
    let (v1, s) ← s.pop
    let (v2, s) ← s.pop
    if v1.Kind ≠ KFloat32 ∨ v2.Kind ≠ KFloat32 then .error "Values need to be float32"
    else s.push (Float32Value (fa.fadd v1.Raw v2.Raw))
  | 8 => do
    -- FSUB computes v2 - v1: second popped minus first popped.
    let (v1, s) ← s.pop
    let (v2, s) ← s.pop
    if v1.Kind ≠ KFloat32 ∨ v2.Kind ≠ KFloat32 then .error "Values need to be float32"
    else s.push (Float32Value (fa.fsub v2.Raw v1.Raw))
  | 9 => do
    let (v1, s) ← s.pop
    let (v2, s) ← s.pop
    if v1.Kind ≠ KFloat32 ∨ v2.Kind ≠ KFloat32 then .error "Values need to be float32"
    else s.push (Float32Value (fa.fmul v1.Raw v2.Raw))
  | 10 => do
    let (v1, s) ← s.pop
    let (v2, s) ← s.pop
    if v1.Kind ≠ KFloat32 ∨ v2.Kind ≠ KFloat32 then .error "Values need to be float32"
    else if f32eq v1.Raw 0 then .error "Division by zero"
    else s.push (Float32Value (fa.fdiv v2.Raw v1.Raw))
  | 11 => do
    let (addr, s) ← s.extractUInt16
    .ok { s with Ip := addr }
  | 12 => do
    let (addr, s) ← s.extractUInt16
    if s.Bytecode.length ≤ addr then .error "Invalid address"
    else do
      let (bits, s) ← s.extractUInt32
      let (top, s) ← s.pop
      if top.Kind ≠ KInt32 then .error "should be an int32"
      else if int32OfRaw bits ≠ int32OfRaw top.Raw then .ok { s with Ip := addr }
      else .ok s
  | 13 => do
    let (addr, s) ← s.extractUInt16
    if s.Bytecode.length ≤ addr then .error "Invalid address"
    else do
      let (bits, s) ← s.extractUInt32
      let (top, s) ← s.pop
      if top.Kind ≠ KInt32 then .error "Should be an int32"
      else if int32OfRaw bits = int32OfRaw top.Raw then .ok { s with Ip := addr }
      else .ok s
  | 14 => do
    let (addr, s) ← s.extractUInt16
    if s.Bytecode.length ≤ addr then .error "Invalid address"
    else do
      let (bits, s) ← s.extractUInt32
      let (top, s) ← s.pop
      if top.Kind ≠ KFloat32 then .error "Should be a float32"
      else if !f32eq bits top.Raw then .ok { s with Ip := addr }
      else .ok s
  | 15 => do
    let (addr, s) ← s.extractUInt16
    if s.Bytecode.length ≤ addr then .error "Invalid address"
    else do
      let (bits, s) ← s.extractUInt32
      let (top, s) ← s.pop
      if top.Kind ≠ KFloat32 then .error "Should be a float32"
      else if f32eq bits top.Raw then .ok { s with Ip := addr }
      else .ok s
  | 16 => do
    let (v1, s) ← s.pop
    let (v2, s) ← s.pop
    let b ← valueEquals v1 v2
    if b then s.push (Int32Value 1) else s.push (Int32Value 0)
  | 17 => do
    let (v1, s) ← s.pop
    let (v2, s) ← s.pop
    let b ← valueEquals v1 v2
    if !b then s.push (Int32Value 1) else s.push (Int32Value 0)
  | 18 => do
    -- LT pushes 1 iff second popped < first popped.
    let (v1, s) ← s.pop
    let (v2, s) ← s.pop
    let b ← valueLesser v2 v1
    if b then s.push (Int32Value 1) else s.push (Int32Value 0)
  | 19 => do
    -- GT pushes 1 iff not (second popped < first popped).
    let (v1, s) ← s.pop
    let (v2, s) ← s.pop
    let b ← valueLesser v2 v1
    if !b then s.push (Int32Value 1) else s.push (Int32Value 0)
  | 20 => do
    -- GE pushes 1 iff first popped < second popped or both equal
    -- (short-circuit disjunction as in the source).
    let (v1, s) ← s.pop
    let (v2, s) ← s.pop
    let b1 ← valueLesser v1 v2
    if b1 then s.push (Int32Value 1)
    else do
      let b2 ← valueEquals v1 v2
      if b2 then s.push (Int32Value 1) else s.push (Int32Value 0)
  | 21 => do
    -- LE pushes 1 iff second popped <= first popped.
    let (v1, s) ← s.pop
    let (v2, s) ← s.pop
    let b ← valueLesserOrEqual v2 v1
    if b then s.push (Int32Value 1) else s.push (Int32Value 0)
  | 22 => do
    let (addr, s) ← s.extractUInt16
    match s.CallStack.getLast? with
    | none => .error "call stack empty"
    | some f =>
      match lookupMap f.Locals addr with
      | none => .error "Local variable at address not found"
      | some value => s.push value
  | 23 => do
    let (addr, s) ← s.extractUInt16
    let (top, s) ← s.pop
    s.modifyLast (fun f => { f with Locals := insertMap f.Locals addr top })
  | 24 => do
    -- CALL: pop ParamCount arguments (first popped = last argument),
    -- create the callee frame with return address just past the
    -- operand, and deposit the arguments in reverse pop order (the Go
    -- loop pushes args[len-1] down to args[0]).
    let (calleAddr, s) ← s.extractUInt16
    match lookupMap s.Functions calleAddr with
    | none => .error "function not found at address"
    | some signature => do
      let (args, s) ← s.popN signature.ParamCount
      let returnAddress := s.Ip
      .ok { s with
              CallStack := s.CallStack ++ [⟨[], returnAddress, args.reverse⟩],
              Ip := calleAddr }
  | 25 =>
    -- RET. The empty-operand-stack check precedes the sentinel check.
    -- The returning function is looked up as the first table entry (in
    -- map iteration order, modelled as list order) whose address is at
    -- most Ip - 1; when none matches, the type check is skipped.
    match s.CallStack.getLast? with
    | none => .error "Cannot RET: callstack empty"
    | some calleeFrame =>
      match calleeFrame.LocalStack.getLast? with
      | none => .error "Cannot RET: local stack empty"
      | some returnValue =>
        if calleeFrame.ReturnAddress = sentinel then
          .ok { s with Running := false }
        else
          let currentFuncStart := s.Ip - 1
          let found := s.Functions.find?
            (fun e => decide (e.1 ≤ currentFuncStart) &&
                      decide (currentFuncStart < s.Bytecode.length))
          let check : Except String Unit :=
            match found with
            | some e =>
              if e.2.ReturnType ≠ returnValue.Kind then
                if e.2.ReturnType = KStruct ∧ returnValue.Kind = KPtr then
                  match s.Heap.find returnValue.Ptr with
                  | none => .error "Return type mismatch: expected struct"
                  | some r =>
                    if readByte r.bytes 0 ≠ KStruct then
                      .error "Return type mismatch: expected struct"
                    else .ok ()
                else .error "Return type mismatch"
              else .ok ()
            | none => .ok ()
          match check with
          | .error e => .error e
          | .ok _ =>
            let cs := s.CallStack.dropLast
            match cs.getLast? with
            | none => .error "Cannot RET: callstack empty after popping frame"
            | some callerFrame =>
              .ok { s with
                      CallStack := cs.dropLast ++
                        [{ callerFrame with
                             LocalStack := callerFrame.LocalStack ++ [returnValue] }],
                      Ip := calleeFrame.ReturnAddress }
  | 26 =>
    match s.CallStack.getLast? with
    | none => .error "CANNOT RETV: callstack empty"
    | some calleeFrame =>
      .ok { s with CallStack := s.CallStack.dropLast, Ip := calleeFrame.ReturnAddress }
  | 27 => do
    -- ALLOC: uintptr(AsInt32) wraps negative sizes to enormous values;
    -- the model lets the allocation succeed where the OS would refuse
    -- it (no claim exercises such a size).
    let (top, s) ← s.pop
    if top.Kind ≠ KInt32 then .error "size should be an integer"
    else
      let bytes := ((int32OfRaw top.Raw) % (2 ^ 64)).toNat
      match s.Heap.Allocate bytes with
      | .error e => .error e
      | .ok (p, h) => VMState.push { s with Heap := h } (PtrValue p)
  | 28 => do
    let (v, s) ← s.pop
    let p ← v.asPtr
    match s.Heap.Free p with
    | .error e => .error e
    | .ok h => .ok { s with Heap := h }
  | 29 => do
    let (v, s) ← s.pop
    let p ← v.asPtr
    let value ← s.Heap.LoadValue p
    s.push value
  | 30 => do
    let (value, s) ← s.pop
    let (pv, s) ← s.pop
    let p ← pv.asPtr
    match s.Heap.StoreValue p value with
    | (_, some e) => .error e
    | (h, none) => .ok { s with Heap := h }
  | 31 => do
    let (top, s) ← s.pop
    let s ← s.push top
    s.push top
  | 32 => do
    let (length, s) ← s.extractUInt16
    if s.Ip + length ≤ s.Bytecode.length then
      let data := readBytes s.Bytecode s.Ip length
      let s := { s with Ip := s.Ip + length }
      match s.Heap.AllocateString data with
      | .error e => .error e
      | .ok (p, h) => VMState.push { s with Heap := h } (PtrValue p)
    else .error "index out of range"
  | 33 => do
    -- SYSCALL: the 16-bit immediate is converted to the byte-sized
    -- Systemcall type, truncating to the low 8 bits.
    let (id, s) ← s.extractUInt16
    s.executeSystemCall (id % 256)
  | 34 => do
    let (elementKind, s) ← s.getByte
    let (v, s) ← s.pop
    let length ← v.asInt32
    match s.Heap.AllocateArray elementKind length with
    | .error e => .error e
    | .ok (p, h) => VMState.push { s with Heap := h } (PtrValue p)
  | 35 => do
    let (iv, s) ← s.pop
    let index ← iv.asInt32
    let (av, s) ← s.pop
    let arrayPtr ← av.asPtr
    let value ← s.Heap.GetArrayElement arrayPtr index
    s.push value
  | 36 => do
    let (value, s) ← s.pop
    let (iv, s) ← s.pop
    let index ← iv.asInt32
    let (av, s) ← s.pop
    let arrayPtr ← av.asPtr
    match s.Heap.SetArrayElement arrayPtr index value with
    | (_, some e) => .error e
    | (h, none) => .ok { s with Heap := h }
  | 37 => .ok { s with Ip := s.Ip + 5 }
  | 41 => do
    let (typeName, s) ← s.extractStringZ
    match lookupMap s.Structs typeName with
    | none => .error "Unkown struct type"
    | some structType =>
      match s.Heap.AllocateStruct structType with
      | .error e => .error e
      | .ok (p, h) => VMState.push { s with Heap := h } (PtrValue p)
  | 42 => do
    let (fieldName, s) ← s.extractStringZ
    let (v, s) ← s.pop
    let structPtr ← v.asPtr
    let value ← s.Heap.GetStructField structPtr fieldName
    s.push value
  | 43 => do
    let (value, s) ← s.pop
    let (sv, s) ← s.pop
    let structPtr ← sv.asPtr
    let (fieldName, s) ← s.extractStringZ
    match s.Heap.SetStructureField structPtr fieldName value with
    | (_, some e) => .error e
    | (h, none) => .ok { s with Heap := h }
  | _ => .ok s

/-- One iteration of `vm.Run`: fetch the opcode byte, dispatch. -/
def step (fa : FloatArith) (s : VMState) : Except String VMState := do
  let (opcode, s1) ← s.getByte
  execute fa s1 opcode

/-- `vm.Run`, with fuel: iterate `step` while `Running`. -/
def run (fa : FloatArith) : VMState → Nat → Except String VMState
  | s, 0 => .ok s
  | s, n + 1 =>
    if s.Running then do
      let s1 ← step fa s
      run fa s1 n
    else .ok s

/-! ## The prescan (vm.buildFunctionTable, vm.buildStructsTable) -/

/-- The walk of `buildFunctionTable`, one fuel unit per loop iteration
(the instruction pointer strictly increases, so `length + 1` fuel always
suffices).  Returns the table, the found-main flag and the main
address. -/
def scanFunctions (bc : Bytes) :
    Nat → Nat → List (Nat × FunctionSignature) → Bool → Nat →
    Except String (List (Nat × FunctionSignature) × Bool × Nat)
  | 0, _, _, _, _ => .error "out of fuel"
  | fuel + 1, ip, acc, foundMain, mainAddr =>
    if ip < bc.length then
      if readByte bc ip = 37 then
        -- FUNC header: flavor byte, 2-byte parameter count, return-kind
        -- byte; reading past the end is a Go index panic.
        if ip + 5 ≤ bc.length then
          let isMain := readByte bc (ip + 1) = 39
          let paramCount := readByte bc (ip + 2) * 256 + readByte bc (ip + 3)
          let returnType := readByte bc (ip + 4)
          let nameAddr : Bytes × Nat :=
            if returnType = KStruct then
              match scanZ (bc.drop (ip + 5)) with
              | some n => (readBytes bc (ip + 5) n, ip + 5 + n + 1)
              | none => (bc.drop (ip + 5), bc.length + 1)
            else ([], ip + 5)
          if isMain ∧ foundMain then .error "Multiple main functions"
          else if isMain ∧ returnType ≠ KVoid then
            .error "Main function should always be void"
          else
            let sig : FunctionSignature :=
              ⟨nameAddr.2, paramCount, returnType, isMain, nameAddr.1⟩
            scanFunctions bc fuel nameAddr.2 (insertMap acc nameAddr.2 sig)
              (foundMain ∨ isMain) (if isMain then nameAddr.2 else mainAddr)
        else .error "index out of range"
      else scanFunctions bc fuel (ip + 1) acc foundMain mainAddr
    else .ok (acc, foundMain, mainAddr)

/-- `buildFunctionTable`: scan, then require a main; the second
component of the result is the main entry address the scan installed as
the initial instruction pointer. -/
def buildFunctionTable (bc : Bytes) :
    Except String (List (Nat × FunctionSignature) × Nat) := do
  let (fns, foundMain, mainAddr) ← scanFunctions bc (bc.length + 1) 0 [] false 0
  if foundMain then .ok (fns, mainAddr) else .error "No main function found"

/-- The field loop of `buildStructsTable`: `count` fields starting at
`ip` with running offset `off`. -/
def scanFields (bc : Bytes) :
    Nat → Nat → Nat → List StructFieldM →
    Except String (List StructFieldM × Nat × Nat)
  | 0, ip, off, acc => .ok (acc, ip, off)
  | count + 1, ip, off, acc =>
    match scanZ (bc.drop ip) with
    | none => .error "index out of range"
    | some n =>
      let fieldName := readBytes bc ip n
      let ip1 := ip + n + 1
      if ip1 < bc.length then
        let fieldType := readByte bc ip1
        match GetElementSize fieldType with
        | none => .error "Unsupported array element type"
        | some sz =>
          if fieldType = KArray then
            if ip1 + 1 < bc.length then
              let elemType := readByte bc (ip1 + 1)
              scanFields bc count (ip1 + 2) (off + sz)
                (acc ++ [⟨fieldName, fieldType, off, some elemType⟩])
            else .error "index out of range"
          else
            scanFields bc count (ip1 + 1) (off + sz)
              (acc ++ [⟨fieldName, fieldType, off, none⟩])
      else .error "index out of range"

/-- The walk of `buildStructsTable` over DEFSTRUCT records. -/
def scanStructs (bc : Bytes) :
    Nat → Nat → List (Bytes × StructTypeM) →
    Except String (List (Bytes × StructTypeM))
  | 0, _, _ => .error "out of fuel"
  | fuel + 1, ip, acc =>
    if ip < bc.length then
      if readByte bc ip = 40 then
        match scanZ (bc.drop (ip + 1)) with
        | none => .error "index out of range"
        | some n =>
          let structName := readBytes bc (ip + 1) n
          let ip1 := ip + 1 + n + 1
          if ip1 < bc.length then do
            let fieldsNumber := readByte bc ip1
            let (fields, ip2, size) ← scanFields bc fieldsNumber (ip1 + 1) 0 []
            scanStructs bc fuel ip2 (insertMap acc structName ⟨structName, fields, size⟩)
          else .error "index out of range"
      else scanStructs bc fuel (ip + 1) acc
    else .ok acc

/-- `NewVm`: build the function table (fatal on main-related errors),
build the struct table when the stream opens with DEFSTRUCT, and push
the outermost frame with the sentinel return address. -/
def NewVm (bytecode : Bytes) (input : Bytes) : Except String VMState := do
  let (fns, mainAddr) ← buildFunctionTable bytecode
  let structs ←
    if bytecode.length > 0 ∧ readByte bytecode 0 = 40 then
      scanStructs bytecode (bytecode.length + 1) 0 []
    else pure []
  .ok { Ip := mainAddr, Bytecode := bytecode, Running := true,
        CallStack := [⟨[], sentinel, []⟩], Heap := ⟨[]⟩,
        Functions := fns, Structs := structs, Input := input, Output := [] }

/-! ## Function streams, chunk by chunk.

To state what the prescan does to a whole bytecode stream, a stream is
described as a list of function chunks: each chunk is the five header
bytes the scan parses (FUNC, the flavor byte, two parameter-count
bytes, the return-kind byte) followed by the body bytes up to the next
FUNC header.  A chunk is in the scan's simple regime when its return
kind is not Struct (no name follows the header) and no body byte is
the FUNC opcode. -/

/-- One function chunk of a bytecode stream, as `buildFunctionTable`
walks it. -/
structure FnHeader where
  isMain : Bool
  p1 : Nat := 0
  p2 : Nat := 0
  returnType : Nat
  body : Bytes := []

/-- The bytes of one function chunk: the FUNC opcode, the flavor byte
(FUNC_MAIN or FUNC_NORMAL), the big-endian parameter count, the
return-kind byte, the body. -/
def encodeFn (f : FnHeader) : Bytes :=
  [37, if f.isMain then 39 else 38, f.p1, f.p2, f.returnType] ++ f.body

/-- A bytecode stream made of function chunks. -/
def encodeProg : List FnHeader → Bytes
  | [] => []
  | f :: fs => encodeFn f ++ encodeProg fs

/-- What the prescan loop does per chunk, at the header level: the
fatal branches for a second main and for a non-Void main, and
otherwise the table/flag/address update, with the entry address five
bytes past the chunk start. -/
def scanHeaders :
    List FnHeader → Nat → List (Nat × FunctionSignature) → Bool → Nat →
    Except String (List (Nat × FunctionSignature) × Bool × Nat)
  | [], _, acc, fm, ma => .ok (acc, fm, ma)
  | f :: rest, ip, acc, fm, ma =>
    if f.isMain ∧ fm then .error "Multiple main functions"
    else if f.isMain ∧ f.returnType ≠ KVoid then
      .error "Main function should always be void"
    else
      scanHeaders rest (ip + 5 + f.body.length)
        (insertMap acc (ip + 5)
          ⟨ip + 5, f.p1 * 256 + f.p2, f.returnType, f.isMain, []⟩)
        (fm ∨ f.isMain) (if f.isMain then ip + 5 else ma)

/-! ## Assembler code generator (assembler/codeGenerator.go) and the
label recording of the function-body parse loop (assembler/parser.go).

Token literals stay Go strings.  Only the numeric value of a literal
matters to the generator; decimal integer parsing is modelled with
`String.toInt?` (same accepted language and 32-bit range check as
`strconv.ParseInt(lit, 10, 32)`), and float literal parsing
(`fmt.Sscanf` plus decimal-to-IEEE rounding) is kept abstract as the
parameter `pf`, mirroring `FloatArith`. -/

/-- The token types the generator inspects (`Type` is a Lean keyword,
hence `Typ`). -/
inductive TokType
  | INT32 | FLOAT32 | BYTE_TYPE | INT | FLOAT | IDENT | STRING_LIT
deriving DecidableEq, Repr

/-- A token: its type and literal text. -/
structure Token where
  Typ : TokType
  Literal : String
deriving DecidableEq, Repr

/-- `Instruction` from the assembler: opcode plus operand tokens. -/
structure Instruction where
  Opcode : Nat
  Operands : List Token := []
deriving DecidableEq, Repr

/-- `parseInt32` (strconv.ParseInt base 10, bit size 32). -/
def parseInt32M (literal : String) : Except String Int :=
  match literal.toInt? with
  | none => .error "invalid integer"
  | some i =>
    if i < -(2 ^ 31) ∨ 2 ^ 31 - 1 < i then .error "invalid integer" else .ok i

/-- `strconv.ParseUint(lit, 10, 16)` for the SYSCALL immediate. -/
def parseUint16M (literal : String) : Except String Nat :=
  match literal.toNat? with
  | none => .error "invalid syscall number"
  | some n => if n < 2 ^ 16 then .ok n else .error "invalid syscall number"

/-- Big-endian bytes of a `uint16` (`emitUint16`). -/
def be16 (v : Nat) : Bytes := [v / 256 % 256, v % 256]

/-- Big-endian bytes of a `uint32` (`emitInt32` / `emitFloat32`). -/
def be32 (v : Nat) : Bytes :=
  [v / 2 ^ 24 % 256, v / 2 ^ 16 % 256, v / 256 % 256, v % 256]

/-- The UTF-8 bytes of a Go string (Go `[]byte(s)` / `len(s)`). -/
def strBytes (s : String) : Bytes := s.toUTF8.toList.map (fun b => b.toNat)

/-- `emitString`: the bytes followed by a zero terminator. -/
def emitStringBytes (s : String) : Bytes := strBytes s ++ [0]

/-- The generator context a single `generateInstruction` call reads:
the enclosing function's labels map, the function table and the struct
table. -/
structure GenCtx where
  labels : List (String × Nat) := []
  functionTable : List (String × Nat) := []
  structTable : List (String × StructTypeM) := []

/-- `generateInstruction`: the opcode byte followed by the encoded
operands; faithful to the source switch (opcode numbers as in
vm/opcodes.go).  On an operand error the enclosing `Generate` aborts,
so the partially emitted bytes are discarded with the error. -/
def generateInstruction (pf : String → Except String Nat) (ctx : GenCtx)
    (inst : Instruction) : Except String Bytes := do
  let op := inst.Opcode % 256
  match inst.Opcode with
  | 1 =>  -- PUSH
    if h2 : inst.Operands.length = 2 then do
      let typeToken := inst.Operands.get ⟨0, by omega⟩
      let valueToken := inst.Operands.get ⟨1, by omega⟩
      if typeToken.Typ = .INT32 then do
        let value ← parseInt32M valueToken.Literal
        .ok ([op, KInt32] ++ be32 (u32 value))
      else if typeToken.Typ = .FLOAT32 then do
        let bits ← pf valueToken.Literal
        .ok ([op, KFloat32] ++ be32 (bits % 2 ^ 32))
      else if typeToken.Typ = .BYTE_TYPE then do
        let value ← parseInt32M valueToken.Literal
        if value < 0 ∨ 255 < value then .error "byte value out of range"
        else .ok ([op, KByte] ++ [value.toNat % 256])
      else .error "unsupported type in push"
    else .error "push requires two operands"
  | 22 | 23 =>  -- LOAD, STORE
    match inst.Operands with
    | [addrToken] => do
      let addr ← parseInt32M addrToken.Literal
      .ok (op :: be16 (u32 addr % 2 ^ 16))
    | _ => .error "requires one operand"
  | 24 =>  -- CALL
    match inst.Operands with
    | [funcToken] =>
      match lookupMap ctx.functionTable funcToken.Literal with
      | none => .error "undefined functionn"
      | some funcAddr => .ok (op :: be16 (funcAddr % 2 ^ 16))
    | _ => .error "call requires one operand"
  | 11 | 12 | 13 | 14 | 15 =>  -- JMP, IJNE, IJE, FJNE, FJE
    -- The label operand is looked up in the labels map and emitted
    -- as-is (uint16 truncation only): no instruction-index to
    -- byte-offset conversion happens.  The source's `len(Operands) < 1`
    -- and `len(Operands) != 2` checks appear as the list matches on the
    -- operand list and on its tail.
    match inst.Operands with
    | [] => .error "jump requires at least one operand"
    | labelToken :: restOps =>
      match lookupMap ctx.labels labelToken.Literal with
      | none => .error "undefined label"
      | some labelPos =>
        let operand := be16 (labelPos % 2 ^ 16)
        if inst.Opcode = 11 then .ok (op :: operand)
        else
          match restOps with
          | [valueToken] =>
            if valueToken.Typ = .INT then do
              let value ← parseInt32M valueToken.Literal
              .ok (op :: operand ++ be32 (u32 value))
            else if valueToken.Typ = .FLOAT then do
              let bits ← pf valueToken.Literal
              .ok (op :: operand ++ be32 (bits % 2 ^ 32))
            else .error "unsupported type in conditional jump"
          | _ => .error "conditional jump requires two operands"
  | 32 =>  -- STRALLOC
    match inst.Operands with
    | [strToken] =>
      .ok (op :: be16 ((strBytes strToken.Literal).length % 2 ^ 16) ++
            strBytes strToken.Literal)
    | _ => .error "stralloc requires one operand"
  | 33 =>  -- SYSCALL
    match inst.Operands with
    | [idToken] => do
      let id ← parseUint16M idToken.Literal
      .ok (op :: be16 id)
    | _ => .error "syscall requires one operand"
  | 34 =>  -- NEWARR
    match inst.Operands with
    | [typeToken] =>
      if typeToken.Typ = .INT32 then .ok [op, KInt32]
      else if typeToken.Typ = .FLOAT32 then .ok [op, KFloat32]
      else .error "unsupported type in newarr"
    | _ => .error "newarr requires one operand"
  | 41 =>  -- NEWSTRUCT
    match inst.Operands with
    | [nameToken] =>
      match lookupMap ctx.structTable nameToken.Literal with
      | none => .error "undefined struct"
      | some _ => .ok (op :: emitStringBytes nameToken.Literal)
    | _ => .error "newstruct requires one operand"
  | 42 | 43 =>  -- FLDGET, STFIELD
    match inst.Operands with
    | [fieldToken] => .ok (op :: emitStringBytes fieldToken.Literal)
    | _ => .error "field access requires one operand"
  | _ => .ok [op]

/-- One body item of a parsed function: a label marker or an
instruction. -/
inductive BodyItem
  | label (name : String)
  | instr (inst : Instruction)
deriving DecidableEq, Repr

/-- The body loop of `parseFunction` (parser.go): a `name:` item binds
`name` to the current instruction index in the labels map; an
instruction is appended and the index advances. -/
def recordBody :
    List BodyItem → Nat → List Instruction → List (String × Nat) →
    List Instruction × List (String × Nat)
  | [], _, body, labels => (body, labels)
  | .label n :: rest, idx, body, labels => recordBody rest idx body (insertMap labels n idx)
  | .instr i :: rest, idx, body, labels => recordBody rest (idx + 1) (body ++ [i]) labels

/-- The number of instruction items in a body prefix. -/
def instrCount : List BodyItem → Nat
  | [] => 0
  | .label _ :: rest => instrCount rest
  | .instr _ :: rest => instrCount rest + 1

/-! ## Infrastructure lemmas -/

theorem VMState.push_concat (s : VMState) (C : List StackFrame) (f : StackFrame)
    (v : Value) (h : s.CallStack = C ++ [f]) :
    s.push v =
      .ok { s with CallStack := C ++ [{ f with LocalStack := f.LocalStack ++ [v] }] } := by
  simp [VMState.push, h]

theorem VMState.pop_concat (s : VMState) (C : List StackFrame) (f : StackFrame)
    (T : List Value) (v : Value) (h : s.CallStack = C ++ [f])
    (hT : f.LocalStack = T ++ [v]) :
    s.pop = .ok (v, { s with CallStack := C ++ [{ f with LocalStack := T }] }) := by
  simp [VMState.pop, h, hT]

theorem int32OfRaw_u32 (x : Int) (hlo : -(2 ^ 31) ≤ x) (hhi : x < 2 ^ 31) :
    int32OfRaw (u32 x) = x := by
  unfold int32OfRaw u32
  omega

/-- The `int32` range, as a hypothesis bundle. -/
def isInt32 (x : Int) : Prop := -(2 ^ 31) ≤ x ∧ x < 2 ^ 31

instance (x : Int) : Decidable (isInt32 x) := by unfold isInt32; infer_instance

theorem exec_isub (fa : FloatArith) (s : VMState) (C : List StackFrame) (f : StackFrame)
    (S : List Value) (x y : Int) (hcs : s.CallStack = C ++ [f])
    (hst : f.LocalStack = S ++ [Int32Value x, Int32Value y])
    (hx : isInt32 x) (hy : isInt32 y) :
    execute fa s 4 =
      .ok { s with CallStack := C ++ [{ f with LocalStack := S ++ [Int32Value (y - x)] }] } := by
  have h1 : f.LocalStack = (S ++ [Int32Value x]) ++ [Int32Value y] := by simp [hst]
  have hp1 := s.pop_concat C f (S ++ [Int32Value x]) (Int32Value y) hcs h1
  have hp2 := VMState.pop_concat
    { s with CallStack := C ++ [{ f with LocalStack := S ++ [Int32Value x] }] }
    C { f with LocalStack := S ++ [Int32Value x] } S (Int32Value x) rfl rfl
  simp only [Int32Value, KInt32] at hp2
  simp [execute, Bind.bind, Except.bind, hp1, hp2, Int32Value, KInt32, KFloat32,
    VMState.push, int32OfRaw_u32 x hx.1 hx.2, int32OfRaw_u32 y hy.1 hy.2]

theorem exec_idiv (fa : FloatArith) (s : VMState) (C : List StackFrame) (f : StackFrame)
    (S : List Value) (x y : Int) (hcs : s.CallStack = C ++ [f])
    (hst : f.LocalStack = S ++ [Int32Value x, Int32Value y])
    (hx : isInt32 x) (hy : isInt32 y) (hy0 : y ≠ 0) :
    execute fa s 6 =
      .ok { s with CallStack :=
              C ++ [{ f with LocalStack := S ++ [Int32Value (Int.tdiv x y)] }] } := by
  have h1 : f.LocalStack = (S ++ [Int32Value x]) ++ [Int32Value y] := by simp [hst]
  have hp1 := s.pop_concat C f (S ++ [Int32Value x]) (Int32Value y) hcs h1
  have hp2 := VMState.pop_concat
    { s with CallStack := C ++ [{ f with LocalStack := S ++ [Int32Value x] }] }
    C { f with LocalStack := S ++ [Int32Value x] } S (Int32Value x) rfl rfl
  simp only [Int32Value, KInt32] at hp2
  simp [execute, Bind.bind, Except.bind, hp1, hp2, Int32Value, KInt32, KFloat32,
    VMState.push, int32OfRaw_u32 x hx.1 hx.2, int32OfRaw_u32 y hy.1 hy.2, hy0]

theorem exec_idiv_zero (fa : FloatArith) (s : VMState) (C : List StackFrame)
    (f : StackFrame) (S : List Value) (x : Int) (hcs : s.CallStack = C ++ [f])
    (hst : f.LocalStack = S ++ [Int32Value x, Int32Value 0]) :
    execute fa s 6 = .error "Division by zero" := by
  have h1 : f.LocalStack = (S ++ [Int32Value x]) ++ [Int32Value 0] := by simp [hst]
  have hp1 := s.pop_concat C f (S ++ [Int32Value x]) (Int32Value 0) hcs h1
  have hp2 := VMState.pop_concat
    { s with CallStack := C ++ [{ f with LocalStack := S ++ [Int32Value x] }] }
    C { f with LocalStack := S ++ [Int32Value x] } S (Int32Value x) rfl rfl
  have hz0 : u32 0 = 0 := by decide
  have hz1 : int32OfRaw 0 = 0 := by decide
  simp only [Int32Value, KInt32, hz0] at hp1 hp2
  simp [execute, Bind.bind, Except.bind, hp1, hp2, Int32Value, KInt32, hz0, hz1]

theorem exec_fsub (fa : FloatArith) (s : VMState) (C : List StackFrame) (f : StackFrame)
    (S : List Value) (a b : Nat) (hcs : s.CallStack = C ++ [f])
    (hst : f.LocalStack = S ++ [Float32Value a, Float32Value b])
    (ha : a < 2 ^ 32) (hb : b < 2 ^ 32) :
    execute fa s 8 =
      .ok { s with CallStack :=
              C ++ [{ f with LocalStack := S ++ [Float32Value (fa.fsub a b)] }] } := by
  have h1 : f.LocalStack = (S ++ [Float32Value a]) ++ [Float32Value b] := by simp [hst]
  have hp1 := s.pop_concat C f (S ++ [Float32Value a]) (Float32Value b) hcs h1
  have hp2 := VMState.pop_concat
    { s with CallStack := C ++ [{ f with LocalStack := S ++ [Float32Value a] }] }
    C { f with LocalStack := S ++ [Float32Value a] } S (Float32Value a) rfl rfl
  simp only [Float32Value, KFloat32, Nat.mod_eq_of_lt ha, Nat.mod_eq_of_lt hb] at hp1 hp2
  simp [execute, Bind.bind, Except.bind, hp1, hp2, Float32Value, KFloat32, KInt32,
    VMState.push, Nat.mod_eq_of_lt ha, Nat.mod_eq_of_lt hb]

theorem exec_fdiv (fa : FloatArith) (s : VMState) (C : List StackFrame) (f : StackFrame)
    (S : List Value) (a b : Nat) (hcs : s.CallStack = C ++ [f])
    (hst : f.LocalStack = S ++ [Float32Value a, Float32Value b])
    (ha : a < 2 ^ 32) (hb : b < 2 ^ 32) (hb0 : f32eq b 0 = false) :
    execute fa s 10 =
      .ok { s with CallStack :=
              C ++ [{ f with LocalStack := S ++ [Float32Value (fa.fdiv a b)] }] } := by
  have h1 : f.LocalStack = (S ++ [Float32Value a]) ++ [Float32Value b] := by simp [hst]
  have hp1 := s.pop_concat C f (S ++ [Float32Value a]) (Float32Value b) hcs h1
  have hp2 := VMState.pop_concat
    { s with CallStack := C ++ [{ f with LocalStack := S ++ [Float32Value a] }] }
    C { f with LocalStack := S ++ [Float32Value a] } S (Float32Value a) rfl rfl
  simp only [Float32Value, KFloat32, Nat.mod_eq_of_lt ha, Nat.mod_eq_of_lt hb] at hp1 hp2
  simp [execute, Bind.bind, Except.bind, hp1, hp2, Float32Value, KFloat32, KInt32,
    VMState.push, Nat.mod_eq_of_lt ha, Nat.mod_eq_of_lt hb, hb0]

theorem exec_fdiv_zero (fa : FloatArith) (s : VMState) (C : List StackFrame)
    (f : StackFrame) (S : List Value) (a b : Nat) (hcs : s.CallStack = C ++ [f])
    (hst : f.LocalStack = S ++ [Float32Value a, Float32Value b])
    (ha : a < 2 ^ 32) (hb : b < 2 ^ 32) (hb0 : f32eq b 0 = true) :
    execute fa s 10 = .error "Division by zero" := by
  have h1 : f.LocalStack = (S ++ [Float32Value a]) ++ [Float32Value b] := by simp [hst]
  have hp1 := s.pop_concat C f (S ++ [Float32Value a]) (Float32Value b) hcs h1
  have hp2 := VMState.pop_concat
    { s with CallStack := C ++ [{ f with LocalStack := S ++ [Float32Value a] }] }
    C { f with LocalStack := S ++ [Float32Value a] } S (Float32Value a) rfl rfl
  simp only [Float32Value, KFloat32, Nat.mod_eq_of_lt ha, Nat.mod_eq_of_lt hb] at hp1 hp2
  simp [execute, Bind.bind, Except.bind, hp1, hp2, Float32Value, KFloat32, KInt32,
    Nat.mod_eq_of_lt ha, Nat.mod_eq_of_lt hb, hb0]

theorem exec_lt_int (fa : FloatArith) (s : VMState) (C : List StackFrame) (f : StackFrame)
    (S : List Value) (x y : Int) (hcs : s.CallStack = C ++ [f])
    (hst : f.LocalStack = S ++ [Int32Value x, Int32Value y])
    (hx : isInt32 x) (hy : isInt32 y) :
    execute fa s 18 =
      .ok { s with CallStack :=
              C ++ [{ f with LocalStack := S ++ [Int32Value (if x < y then 1 else 0)] }] } := by
  have h1 : f.LocalStack = (S ++ [Int32Value x]) ++ [Int32Value y] := by simp [hst]
  have hp1 := s.pop_concat C f (S ++ [Int32Value x]) (Int32Value y) hcs h1
  have hp2 := VMState.pop_concat
    { s with CallStack := C ++ [{ f with LocalStack := S ++ [Int32Value x] }] }
    C { f with LocalStack := S ++ [Int32Value x] } S (Int32Value x) rfl rfl
  simp only [Int32Value, KInt32] at hp1 hp2
  by_cases hxy : x < y <;>
    simp [execute, Bind.bind, Except.bind, hp1, hp2, Int32Value, KInt32, KFloat32,
      valueLesser, VMState.push, int32OfRaw_u32 x hx.1 hx.2, int32OfRaw_u32 y hy.1 hy.2, hxy]

theorem exec_gt_int (fa : FloatArith) (s : VMState) (C : List StackFrame) (f : StackFrame)
    (S : List Value) (x y : Int) (hcs : s.CallStack = C ++ [f])
    (hst : f.LocalStack = S ++ [Int32Value x, Int32Value y])
    (hx : isInt32 x) (hy : isInt32 y) :
    execute fa s 19 =
      .ok { s with CallStack :=
              C ++ [{ f with LocalStack := S ++ [Int32Value (if x < y then 0 else 1)] }] } := by
  have h1 : f.LocalStack = (S ++ [Int32Value x]) ++ [Int32Value y] := by simp [hst]
  have hp1 := s.pop_concat C f (S ++ [Int32Value x]) (Int32Value y) hcs h1
  have hp2 := VMState.pop_concat
    { s with CallStack := C ++ [{ f with LocalStack := S ++ [Int32Value x] }] }
    C { f with LocalStack := S ++ [Int32Value x] } S (Int32Value x) rfl rfl
  simp only [Int32Value, KInt32] at hp1 hp2
  by_cases hxy : x < y <;>
    simp [execute, Bind.bind, Except.bind, hp1, hp2, Int32Value, KInt32, KFloat32,
      valueLesser, VMState.push, int32OfRaw_u32 x hx.1 hx.2, int32OfRaw_u32 y hy.1 hy.2, hxy]

theorem exec_ge_int (fa : FloatArith) (s : VMState) (C : List StackFrame) (f : StackFrame)
    (S : List Value) (x y : Int) (hcs : s.CallStack = C ++ [f])
    (hst : f.LocalStack = S ++ [Int32Value x, Int32Value y])
    (hx : isInt32 x) (hy : isInt32 y) :
    execute fa s 20 =
      .ok { s with CallStack :=
              C ++ [{ f with LocalStack := S ++ [Int32Value (if y ≤ x then 1 else 0)] }] } := by
  have h1 : f.LocalStack = (S ++ [Int32Value x]) ++ [Int32Value y] := by simp [hst]
  have hp1 := s.pop_concat C f (S ++ [Int32Value x]) (Int32Value y) hcs h1
  have hp2 := VMState.pop_concat
    { s with CallStack := C ++ [{ f with LocalStack := S ++ [Int32Value x] }] }
    C { f with LocalStack := S ++ [Int32Value x] } S (Int32Value x) rfl rfl
  simp only [Int32Value, KInt32] at hp1 hp2
  rcases lt_trichotomy y x with hlt | heq | hgt
  · simp [execute, Bind.bind, Except.bind, hp1, hp2, Int32Value, KInt32, KFloat32,
      valueLesser, valueEquals, VMState.push,
      int32OfRaw_u32 x hx.1 hx.2, int32OfRaw_u32 y hy.1 hy.2, hlt, le_of_lt hlt]
  · simp [execute, Bind.bind, Except.bind, hp1, hp2, Int32Value, KInt32, KFloat32,
      valueLesser, valueEquals, VMState.push,
      int32OfRaw_u32 x hx.1 hx.2, int32OfRaw_u32 y hy.1 hy.2, heq]
  · simp [execute, Bind.bind, Except.bind, hp1, hp2, Int32Value, KInt32, KFloat32,
      valueLesser, valueEquals, VMState.push,
      int32OfRaw_u32 x hx.1 hx.2, int32OfRaw_u32 y hy.1 hy.2,
      not_lt_of_gt hgt, ne_of_gt hgt, not_le_of_gt hgt]

theorem exec_lt_float (fa : FloatArith) (s : VMState) (C : List StackFrame) (f : StackFrame)
    (S : List Value) (a b : Nat) (hcs : s.CallStack = C ++ [f])
    (hst : f.LocalStack = S ++ [Float32Value a, Float32Value b])
    (ha : a < 2 ^ 32) (hb : b < 2 ^ 32) :
    execute fa s 18 =
      .ok { s with CallStack :=
              C ++ [{ f with LocalStack := S ++ [Int32Value (if f32lt a b then 1 else 0)] }] } := by
  have h1 : f.LocalStack = (S ++ [Float32Value a]) ++ [Float32Value b] := by simp [hst]
  have hp1 := s.pop_concat C f (S ++ [Float32Value a]) (Float32Value b) hcs h1
  have hp2 := VMState.pop_concat
    { s with CallStack := C ++ [{ f with LocalStack := S ++ [Float32Value a] }] }
    C { f with LocalStack := S ++ [Float32Value a] } S (Float32Value a) rfl rfl
  simp only [Float32Value, KFloat32, Nat.mod_eq_of_lt ha, Nat.mod_eq_of_lt hb] at hp1 hp2
  by_cases hab : f32lt a b <;>
    simp [execute, Bind.bind, Except.bind, hp1, hp2, Float32Value, KFloat32, KInt32,
      valueLesser, VMState.push, Nat.mod_eq_of_lt ha, Nat.mod_eq_of_lt hb, hab]

theorem exec_gt_float (fa : FloatArith) (s : VMState) (C : List StackFrame) (f : StackFrame)
    (S : List Value) (a b : Nat) (hcs : s.CallStack = C ++ [f])
    (hst : f.LocalStack = S ++ [Float32Value a, Float32Value b])
    (ha : a < 2 ^ 32) (hb : b < 2 ^ 32) :
    execute fa s 19 =
      .ok { s with CallStack :=
              C ++ [{ f with LocalStack := S ++ [Int32Value (if f32lt a b then 0 else 1)] }] } := by
  have h1 : f.LocalStack = (S ++ [Float32Value a]) ++ [Float32Value b] := by simp [hst]
  have hp1 := s.pop_concat C f (S ++ [Float32Value a]) (Float32Value b) hcs h1
  have hp2 := VMState.pop_concat
    { s with CallStack := C ++ [{ f with LocalStack := S ++ [Float32Value a] }] }
    C { f with LocalStack := S ++ [Float32Value a] } S (Float32Value a) rfl rfl
  simp only [Float32Value, KFloat32, Nat.mod_eq_of_lt ha, Nat.mod_eq_of_lt hb] at hp1 hp2
  by_cases hab : f32lt a b <;>
    simp [execute, Bind.bind, Except.bind, hp1, hp2, Float32Value, KFloat32, KInt32,
      valueLesser, VMState.push, Nat.mod_eq_of_lt ha, Nat.mod_eq_of_lt hb, hab]

theorem exec_ge_float (fa : FloatArith) (s : VMState) (C : List StackFrame) (f : StackFrame)
    (S : List Value) (a b : Nat) (hcs : s.CallStack = C ++ [f])
    (hst : f.LocalStack = S ++ [Float32Value a, Float32Value b])
    (ha : a < 2 ^ 32) (hb : b < 2 ^ 32) :
    execute fa s 20 =
      .ok { s with CallStack :=
              C ++ [{ f with LocalStack := S ++ [Int32Value (if f32le b a then 1 else 0)] }] } := by
  have h1 : f.LocalStack = (S ++ [Float32Value a]) ++ [Float32Value b] := by simp [hst]
  have hp1 := s.pop_concat C f (S ++ [Float32Value a]) (Float32Value b) hcs h1
  have hp2 := VMState.pop_concat
    { s with CallStack := C ++ [{ f with LocalStack := S ++ [Float32Value a] }] }
    C { f with LocalStack := S ++ [Float32Value a] } S (Float32Value a) rfl rfl
  simp only [Float32Value, KFloat32, Nat.mod_eq_of_lt ha, Nat.mod_eq_of_lt hb] at hp1 hp2
  have hle : f32le b a = (f32lt b a || f32eq b a) := rfl
  by_cases h1' : f32lt b a <;> by_cases h2' : f32eq b a <;>
    simp [execute, Bind.bind, Except.bind, hp1, hp2, Float32Value, KFloat32, KInt32,
      valueLesser, valueEquals, VMState.push, Nat.mod_eq_of_lt ha, Nat.mod_eq_of_lt hb,
      hle, h1', h2']

/-- A concrete instance of the abstract float32 arithmetic, used only to
state closed executions that never reach a float arithmetic opcode. -/
def faZero : FloatArith := ⟨fun _ _ => 0, fun _ _ => 0, fun _ _ => 0, fun _ _ => 0⟩

/-! ## Claim C2 -/

/-- C2, counterexample.  Running
`push int32 5; push int32 3; isub; halt` from `NewVm` leaves
`Int32(-2)` on the stack: ISUB computes first-popped minus
second-popped (3 − 5), not second minus first (5 − 3 = 2) as the claim
states for every non-commutative opcode. -/
theorem C2_counterexample :
    (NewVm [37, 39, 0, 0, 5, 1, 0, 0, 0, 0, 5, 1, 0, 0, 0, 0, 3, 4, 0] []).bind
        (fun s0 => run faZero s0 4) =
      .ok { Ip := 19, Bytecode := [37, 39, 0, 0, 5, 1, 0, 0, 0, 0, 5, 1, 0, 0, 0, 0, 3, 4, 0],
            Running := false,
            CallStack := [⟨[], sentinel, [Int32Value (-2)]⟩], Heap := ⟨[]⟩,
            Functions := [(5, ⟨5, 0, 5, true, []⟩)], Structs := [],
            Input := [], Output := [] } ∧
    Int32Value (-2) ≠ Int32Value (5 - 3) := by
  exact ⟨rfl, by decide⟩

/-- C2 (amended): with `x` the second-popped and `y` the first-popped
operand, ISUB pushes `y - x` (first minus second); IDIV pushes the
truncated quotient `x / y` (second divided by first) and a zero
first-popped divisor is fatal; FSUB pushes `fsub x y` (second minus
first) and FDIV pushes `fdiv x y` (second divided by first) with a zero
first-popped divisor fatal.  So all four non-commutative opcodes use
the second-popped operand as the left operand except ISUB, which uses
the first-popped operand. -/
theorem C2_arith_operand_order (fa : FloatArith) (s : VMState) (C : List StackFrame)
    (f : StackFrame) (S : List Value) (hcs : s.CallStack = C ++ [f]) :
    (∀ x y : Int, isInt32 x → isInt32 y →
      f.LocalStack = S ++ [Int32Value x, Int32Value y] →
      execute fa s 4 =
        .ok { s with CallStack :=
                C ++ [{ f with LocalStack := S ++ [Int32Value (y - x)] }] }) ∧
    (∀ x y : Int, isInt32 x → isInt32 y → y ≠ 0 →
      f.LocalStack = S ++ [Int32Value x, Int32Value y] →
      execute fa s 6 =
        .ok { s with CallStack :=
                C ++ [{ f with LocalStack := S ++ [Int32Value (Int.tdiv x y)] }] }) ∧
    (∀ x : Int, f.LocalStack = S ++ [Int32Value x, Int32Value 0] →
      execute fa s 6 = .error "Division by zero") ∧
    (∀ a b : Nat, a < 2 ^ 32 → b < 2 ^ 32 →
      f.LocalStack = S ++ [Float32Value a, Float32Value b] →
      execute fa s 8 =
        .ok { s with CallStack :=
                C ++ [{ f with LocalStack := S ++ [Float32Value (fa.fsub a b)] }] }) ∧
    (∀ a b : Nat, a < 2 ^ 32 → b < 2 ^ 32 → f32eq b 0 = false →
      f.LocalStack = S ++ [Float32Value a, Float32Value b] →
      execute fa s 10 =
        .ok { s with CallStack :=
                C ++ [{ f with LocalStack := S ++ [Float32Value (fa.fdiv a b)] }] }) ∧
    (∀ a b : Nat, a < 2 ^ 32 → b < 2 ^ 32 → f32eq b 0 = true →
      f.LocalStack = S ++ [Float32Value a, Float32Value b] →
      execute fa s 10 = .error "Division by zero") := by
  refine ⟨?_, ?_, ?_, ?_, ?_, ?_⟩
  · exact fun x y hx hy hst => exec_isub fa s C f S x y hcs hst hx hy
  · exact fun x y hx hy hy0 hst => exec_idiv fa s C f S x y hcs hst hx hy hy0
  · exact fun x hst => exec_idiv_zero fa s C f S x hcs hst
  · exact fun a b ha hb hst => exec_fsub fa s C f S a b hcs hst ha hb
  · exact fun a b ha hb hb0 hst => exec_fdiv fa s C f S a b hcs hst ha hb hb0
  · exact fun a b ha hb hb0 hst => exec_fdiv_zero fa s C f S a b hcs hst ha hb hb0

/-- Witness for `C2_arith_operand_order` at concrete operands. -/
theorem C2_arith_operand_order_witness :
    execute faZero
        ⟨0, [], true, [⟨[], sentinel, [Int32Value 7, Int32Value 3]⟩], ⟨[]⟩, [], [], [], []⟩ 4 =
      .ok ⟨0, [], true, [⟨[], sentinel, [Int32Value (3 - 7)]⟩], ⟨[]⟩, [], [], [], []⟩ ∧
    execute faZero
        ⟨0, [], true, [⟨[], sentinel, [Int32Value 7, Int32Value 0]⟩], ⟨[]⟩, [], [], [], []⟩ 6 =
      .error "Division by zero" := by
  constructor
  · exact (C2_arith_operand_order faZero
      ⟨0, [], true, [⟨[], sentinel, [Int32Value 7, Int32Value 3]⟩], ⟨[]⟩, [], [], [], []⟩
      [] ⟨[], sentinel, [Int32Value 7, Int32Value 3]⟩ [] rfl).1 7 3
      (by decide) (by decide) rfl
  · exact (C2_arith_operand_order faZero
      ⟨0, [], true, [⟨[], sentinel, [Int32Value 7, Int32Value 0]⟩], ⟨[]⟩, [], [], [], []⟩
      [] ⟨[], sentinel, [Int32Value 7, Int32Value 0]⟩ [] rfl).2.2.1 7 rfl

/-! ## Claim C5 -/

/-- C5, counterexample.  Running `push int32 1; push int32 5; gt; halt`
leaves `Int32(0)` on the stack, although with the claim's convention
(left operand `a` = second-popped = 1, right operand `b` =
first-popped = 5) the claimed formula `¬(b < a)` is `¬(5 < 1)`, which
is true and would demand `Int32(1)`. -/
theorem C5_counterexample :
    (NewVm [37, 39, 0, 0, 5, 1, 0, 0, 0, 0, 1, 1, 0, 0, 0, 0, 5, 19, 0] []).bind
        (fun s0 => run faZero s0 4) =
      .ok { Ip := 19, Bytecode := [37, 39, 0, 0, 5, 1, 0, 0, 0, 0, 1, 1, 0, 0, 0, 0, 5, 19, 0],
            Running := false,
            CallStack := [⟨[], sentinel, [Int32Value 0]⟩], Heap := ⟨[]⟩,
            Functions := [(5, ⟨5, 0, 5, true, []⟩)], Structs := [],
            Input := [], Output := [] } ∧
    ¬ ((5 : Int) < 1) ∧ Int32Value 0 ≠ Int32Value 1 := by
  exact ⟨rfl, by decide, by decide⟩

/-- C5 (amended): with left operand `a` = second-popped and right
operand `b` = first-popped, LT pushes Int32 1 exactly when `a < b`,
GE pushes Int32 1 exactly when `b ≤ a`, and GT pushes Int32 1 exactly
when `¬(a < b)` (so GT coincides with GE on non-NaN operands), for
Int32 and Float32 operands alike; all boolean results are encoded as
Int32 1/0.  In particular `push int32 5; push int32 1; gt; ret` leaves
`Int32(1)` on the stack. -/
theorem C5_comparison_semantics (fa : FloatArith) (s : VMState) (C : List StackFrame)
    (f : StackFrame) (S : List Value) (hcs : s.CallStack = C ++ [f]) :
    (∀ x y : Int, isInt32 x → isInt32 y →
      f.LocalStack = S ++ [Int32Value x, Int32Value y] →
      execute fa s 18 =
        .ok { s with CallStack :=
                C ++ [{ f with LocalStack := S ++ [Int32Value (if x < y then 1 else 0)] }] }) ∧
    (∀ x y : Int, isInt32 x → isInt32 y →
      f.LocalStack = S ++ [Int32Value x, Int32Value y] →
      execute fa s 20 =
        .ok { s with CallStack :=
                C ++ [{ f with LocalStack := S ++ [Int32Value (if y ≤ x then 1 else 0)] }] }) ∧
    (∀ x y : Int, isInt32 x → isInt32 y →
      f.LocalStack = S ++ [Int32Value x, Int32Value y] →
      execute fa s 19 =
        .ok { s with CallStack :=
                C ++ [{ f with LocalStack := S ++ [Int32Value (if x < y then 0 else 1)] }] }) ∧
    (∀ a b : Nat, a < 2 ^ 32 → b < 2 ^ 32 →
      f.LocalStack = S ++ [Float32Value a, Float32Value b] →
      execute fa s 18 =
        .ok { s with CallStack :=
                C ++ [{ f with LocalStack := S ++ [Int32Value (if f32lt a b then 1 else 0)] }] }) ∧
    (∀ a b : Nat, a < 2 ^ 32 → b < 2 ^ 32 →
      f.LocalStack = S ++ [Float32Value a, Float32Value b] →
      execute fa s 20 =
        .ok { s with CallStack :=
                C ++ [{ f with LocalStack := S ++ [Int32Value (if f32le b a then 1 else 0)] }] }) ∧
    (∀ a b : Nat, a < 2 ^ 32 → b < 2 ^ 32 →
      f.LocalStack = S ++ [Float32Value a, Float32Value b] →
      execute fa s 19 =
        .ok { s with CallStack :=
                C ++ [{ f with LocalStack := S ++ [Int32Value (if f32lt a b then 0 else 1)] }] }) ∧
    (NewVm [37, 39, 0, 0, 5, 1, 0, 0, 0, 0, 5, 1, 0, 0, 0, 0, 1, 19, 25] []).bind
        (fun s0 => run faZero s0 4) =
      .ok { Ip := 19, Bytecode := [37, 39, 0, 0, 5, 1, 0, 0, 0, 0, 5, 1, 0, 0, 0, 0, 1, 19, 25],
            Running := false,
            CallStack := [⟨[], sentinel, [Int32Value 1]⟩], Heap := ⟨[]⟩,
            Functions := [(5, ⟨5, 0, 5, true, []⟩)], Structs := [],
            Input := [], Output := [] } := by
  refine ⟨?_, ?_, ?_, ?_, ?_, ?_, rfl⟩
  · exact fun x y hx hy hst => exec_lt_int fa s C f S x y hcs hst hx hy
  · exact fun x y hx hy hst => exec_ge_int fa s C f S x y hcs hst hx hy
  · exact fun x y hx hy hst => exec_gt_int fa s C f S x y hcs hst hx hy
  · exact fun a b ha hb hst => exec_lt_float fa s C f S a b hcs hst ha hb
  · exact fun a b ha hb hst => exec_ge_float fa s C f S a b hcs hst ha hb
  · exact fun a b ha hb hst => exec_gt_float fa s C f S a b hcs hst ha hb

/-- Witness for `C5_comparison_semantics`: the example comparison
`gt` on second-popped 5 and first-popped 1 pushes Int32 1. -/
theorem C5_comparison_semantics_witness :
    execute faZero
        ⟨0, [], true, [⟨[], sentinel, [Int32Value 5, Int32Value 1]⟩], ⟨[]⟩, [], [], [], []⟩ 19 =
      .ok ⟨0, [], true, [⟨[], sentinel, [Int32Value 1]⟩], ⟨[]⟩, [], [], [], []⟩ := by
  have h := (C5_comparison_semantics faZero
    ⟨0, [], true, [⟨[], sentinel, [Int32Value 5, Int32Value 1]⟩], ⟨[]⟩, [], [], [], []⟩
    [] ⟨[], sentinel, [Int32Value 5, Int32Value 1]⟩ [] rfl).2.2.1 5 1
    (by decide) (by decide) rfl
  simpa using h

/-! ## Claim C10 -/

/-- C10: executing RET with an empty operand stack in the top frame is
fatal, whatever the frame's return address is: the empty-stack check
precedes the sentinel check, so this holds in particular for the
outermost frame with the sentinel return address. -/
theorem C10_ret_empty_stack_fatal (fa : FloatArith) (s : VMState) (C : List StackFrame)
    (f : StackFrame) (hcs : s.CallStack = C ++ [f]) (hst : f.LocalStack = []) :
    execute fa s 25 = .error "Cannot RET: local stack empty" := by
  simp [execute, hcs, hst]

/-- Witness for `C10_ret_empty_stack_fatal`: a main function executing
RET on an empty operand stack with the sentinel return address dies
with an error instead of terminating cleanly. -/
theorem C10_ret_empty_stack_fatal_witness :
    execute faZero ⟨6, [37, 39, 0, 0, 5, 25], true, [⟨[], sentinel, []⟩], ⟨[]⟩,
        [(5, ⟨5, 0, 5, true, []⟩)], [], [], []⟩ 25 =
      .error "Cannot RET: local stack empty" :=
  C10_ret_empty_stack_fatal faZero _ [] ⟨[], sentinel, []⟩ rfl rfl

/-! ## CALL / RET helper lemmas -/

theorem VMState.popN_concat (s : VMState) (C : List StackFrame) (f : StackFrame)
    (S A : List Value) (n : Nat) (hcs : s.CallStack = C ++ [f])
    (hst : f.LocalStack = S ++ A) (hn : A.length = n) :
    s.popN n = .ok (A.reverse, { s with CallStack := C ++ [{ f with LocalStack := S }] }) := by
  induction n generalizing s f A with
  | zero =>
    have hA : A = [] := List.eq_nil_of_length_eq_zero hn
    subst hA
    have hf : ({ f with LocalStack := S } : StackFrame) = f := by
      cases f; simp_all
    rw [hf, ← hcs]
    cases s
    simp [VMState.popN]
  | succ n ih =>
    rcases List.eq_nil_or_concat A with rfl | ⟨A', a, rfl⟩
    · simp at hn
    · have hst' : f.LocalStack = (S ++ A') ++ [a] := by simp [hst]
      have hp := s.pop_concat C f (S ++ A') a hcs hst'
      have hA' : A'.length = n := by simpa using hn
      have ihh := ih { s with CallStack := C ++ [{ f with LocalStack := S ++ A' }] }
        { f with LocalStack := S ++ A' } A' rfl rfl hA'
      simp only [] at hp ihh
      simp [VMState.popN, Bind.bind, Except.bind, hp, ihh]

theorem exec_call (fa : FloatArith) (s : VMState) (C : List StackFrame) (f : StackFrame)
    (S args : List Value) (sig : FunctionSignature) (addr : Nat)
    (hcs : s.CallStack = C ++ [f])
    (hbc : s.Ip + 2 ≤ s.Bytecode.length)
    (haddr : readByte s.Bytecode s.Ip * 256 + readByte s.Bytecode (s.Ip + 1) = addr)
    (hsig : lookupMap s.Functions addr = some sig)
    (hst : f.LocalStack = S ++ args)
    (hn : args.length = sig.ParamCount) :
    execute fa s 24 =
      .ok { s with
              CallStack := C ++ [{ f with LocalStack := S }] ++ [⟨[], s.Ip + 2, args⟩],
              Ip := addr } := by
  have he : s.extractUInt16 = .ok (addr, { s with Ip := s.Ip + 2 }) := by
    simp [VMState.extractUInt16, hbc, haddr]
  have hpn := VMState.popN_concat { s with Ip := s.Ip + 2 } C f S args sig.ParamCount
    (by simp [hcs]) hst hn
  simp only [] at hpn
  simp [execute, Bind.bind, Except.bind, he, hsig, hpn]

theorem exec_ret (fa : FloatArith) (s : VMState) (C : List StackFrame)
    (caller callee : StackFrame) (T : List Value) (rv : Value)
    (hcs : s.CallStack = C ++ [caller, callee])
    (hT : callee.LocalStack = T ++ [rv])
    (hra : callee.ReturnAddress ≠ sentinel)
    (hchk : ∀ e, s.Functions.find?
        (fun e => decide (e.1 ≤ s.Ip - 1) && decide (s.Ip - 1 < s.Bytecode.length)) = some e →
      e.2.ReturnType = rv.Kind) :
    execute fa s 25 =
      .ok { s with
              CallStack := C ++ [{ caller with LocalStack := caller.LocalStack ++ [rv] }],
              Ip := callee.ReturnAddress } := by
  have hcs' : s.CallStack = (C ++ [caller]) ++ [callee] := by simp [hcs]
  rcases hfind : s.Functions.find?
      (fun e => decide (e.1 ≤ s.Ip - 1) && decide (s.Ip - 1 < s.Bytecode.length))
    with _ | e
  · simp [execute, hcs', hT, hra, hfind]
  · have := hchk e hfind
    simp [execute, hcs', hT, hra, hfind, this]

/-! ## Claim C3 -/

/-- C3: the call protocol.  First conjunct, CALL: with the caller's
operand stack `S ++ [a1, ..., an]` and a signature of `n` parameters at
the operand address, CALL pops the `n` arguments (first popped = last
argument), leaves the caller's stack at `S`, pushes a frame whose
return address is the IP just after the 16-bit operand and whose
operand stack holds the arguments in original call order, and jumps to
the callee.  Second conjunct, RET (with the return-type check passing):
the callee frame is popped and the return value is pushed onto the
caller's stack, so after CALL plus RET the caller's stack is `S` plus
the return value, and the IP returns to the recorded return address. -/
theorem C3_call_ret_protocol (fa : FloatArith) :
    (∀ (s : VMState) (C : List StackFrame) (f : StackFrame) (S args : List Value)
        (sig : FunctionSignature) (addr : Nat),
      s.CallStack = C ++ [f] →
      s.Ip + 2 ≤ s.Bytecode.length →
      readByte s.Bytecode s.Ip * 256 + readByte s.Bytecode (s.Ip + 1) = addr →
      lookupMap s.Functions addr = some sig →
      f.LocalStack = S ++ args →
      args.length = sig.ParamCount →
      execute fa s 24 =
        .ok { s with
                CallStack := C ++ [{ f with LocalStack := S }] ++ [⟨[], s.Ip + 2, args⟩],
                Ip := addr }) ∧
    (∀ (s : VMState) (C : List StackFrame) (caller callee : StackFrame)
        (T : List Value) (rv : Value),
      s.CallStack = C ++ [caller, callee] →
      callee.LocalStack = T ++ [rv] →
      callee.ReturnAddress ≠ sentinel →
      (∀ e, s.Functions.find?
          (fun e => decide (e.1 ≤ s.Ip - 1) && decide (s.Ip - 1 < s.Bytecode.length)) =
            some e → e.2.ReturnType = rv.Kind) →
      execute fa s 25 =
        .ok { s with
                CallStack := C ++ [{ caller with LocalStack := caller.LocalStack ++ [rv] }],
                Ip := callee.ReturnAddress }) := by
  constructor
  · exact fun s C f S args sig addr hcs hbc haddr hsig hst hn =>
      exec_call fa s C f S args sig addr hcs hbc haddr hsig hst hn
  · exact fun s C caller callee T rv hcs hT hra hchk =>
      exec_ret fa s C caller callee T rv hcs hT hra hchk

/-- Witness for `C3_call_ret_protocol`: a concrete CALL of a
one-parameter function with argument Int32 4 (frame created, argument
re-pushed, return address 2 recorded), and a concrete RET of Int32 8 to
that caller. -/
theorem C3_call_ret_protocol_witness :
    execute faZero
        ⟨1, [24, 0, 9, 0, 0, 0, 0, 0, 0, 0, 0], true, [⟨[], sentinel, [Int32Value 4]⟩],
          ⟨[]⟩, [(9, ⟨9, 1, 0, false, []⟩)], [], [], []⟩ 24 =
      .ok ⟨9, [24, 0, 9, 0, 0, 0, 0, 0, 0, 0, 0], true,
            [⟨[], sentinel, []⟩, ⟨[], 3, [Int32Value 4]⟩],
            ⟨[]⟩, [(9, ⟨9, 1, 0, false, []⟩)], [], [], []⟩ ∧
    execute faZero
        ⟨10, [24, 0, 9, 0, 0, 0, 0, 0, 0, 0, 0], true,
          [⟨[], sentinel, []⟩, ⟨[], 3, [Int32Value 8]⟩],
          ⟨[]⟩, [(9, ⟨9, 1, 0, false, []⟩)], [], [], []⟩ 25 =
      .ok ⟨3, [24, 0, 9, 0, 0, 0, 0, 0, 0, 0, 0], true,
            [⟨[], sentinel, [Int32Value 8]⟩],
            ⟨[]⟩, [(9, ⟨9, 1, 0, false, []⟩)], [], [], []⟩ := by
  constructor
  · exact (C3_call_ret_protocol faZero).1
      ⟨1, [24, 0, 9, 0, 0, 0, 0, 0, 0, 0, 0], true, [⟨[], sentinel, [Int32Value 4]⟩],
        ⟨[]⟩, [(9, ⟨9, 1, 0, false, []⟩)], [], [], []⟩
      [] ⟨[], sentinel, [Int32Value 4]⟩ [] [Int32Value 4] ⟨9, 1, 0, false, []⟩ 9
      rfl (by decide) (by decide) rfl rfl rfl
  · exact (C3_call_ret_protocol faZero).2
      ⟨10, [24, 0, 9, 0, 0, 0, 0, 0, 0, 0, 0], true,
        [⟨[], sentinel, []⟩, ⟨[], 3, [Int32Value 8]⟩],
        ⟨[]⟩, [(9, ⟨9, 1, 0, false, []⟩)], [], [], []⟩
      [] ⟨[], sentinel, []⟩ ⟨[], 3, [Int32Value 8]⟩ [] (Int32Value 8)
      rfl rfl (by decide) (by decide)

/-! ## Claim C7 -/

/-- C7, counterexample.  The program places a RET byte inside the main
FUNC header (as the high parameter-count byte, which is never used for
main): `main` at entry 5 calls `f` at entry 14; `f` is declared to
return Float32 but pushes Int32 7 and jumps to address 2, below every
function entry, where it executes RET.  The signature scan
(`address <= Ip - 1`) then finds no function, the type check is
skipped with a warning, and the Int32 return is accepted: execution
continues and terminates cleanly with Int32 7 on the stack, although
the returning function declared Float32. -/
theorem C7_counterexample :
    (NewVm [37, 39, 25, 0, 5, 24, 0, 14, 0, 37, 38, 0, 0, 1,
            1, 0, 0, 0, 0, 7, 11, 0, 2] []).bind
        (fun s0 => run faZero s0 5) =
      .ok { Ip := 9,
            Bytecode := [37, 39, 25, 0, 5, 24, 0, 14, 0, 37, 38, 0, 0, 1,
                         1, 0, 0, 0, 0, 7, 11, 0, 2],
            Running := false,
            CallStack := [⟨[], sentinel, [Int32Value 7]⟩], Heap := ⟨[]⟩,
            Functions := [(5, ⟨5, 6400, 5, true, []⟩), (14, ⟨14, 0, 1, false, []⟩)],
            Structs := [], Input := [], Output := [] } ∧
    (Int32Value 7).Kind ≠ KFloat32 := by
  exact ⟨rfl, by decide⟩

/-- C7 (amended): on a RET to a caller, the interpreter compares the
returned value against the first function-table entry (in map
iteration order) whose address is at most `Ip - 1`.  When such an
entry exists and its return kind differs from the returned kind, the
return is fatal, with the single exception that a declared Struct
return accepts a Ptr whose referenced heap region carries the Struct
tag; when no entry matches, the check is skipped and any returned
value is accepted.  The entry found this way is the returning function
only when the lookup happens to hit it, which is why the original
claim fails. -/
theorem C7_ret_typecheck (fa : FloatArith) (s : VMState) (C : List StackFrame)
    (caller callee : StackFrame) (T : List Value) (rv : Value)
    (hcs : s.CallStack = C ++ [caller, callee])
    (hT : callee.LocalStack = T ++ [rv])
    (hra : callee.ReturnAddress ≠ sentinel) :
    (∀ e, s.Functions.find?
        (fun e => decide (e.1 ≤ s.Ip - 1) && decide (s.Ip - 1 < s.Bytecode.length)) =
          some e →
      e.2.ReturnType ≠ rv.Kind →
      ¬(e.2.ReturnType = KStruct ∧ rv.Kind = KPtr) →
      execute fa s 25 = .error "Return type mismatch") ∧
    (∀ e r, s.Functions.find?
        (fun e => decide (e.1 ≤ s.Ip - 1) && decide (s.Ip - 1 < s.Bytecode.length)) =
          some e →
      e.2.ReturnType = KStruct → rv.Kind = KPtr →
      s.Heap.find rv.Ptr = some r → readByte r.bytes 0 = KStruct →
      execute fa s 25 =
        .ok { s with
                CallStack := C ++ [{ caller with LocalStack := caller.LocalStack ++ [rv] }],
                Ip := callee.ReturnAddress }) ∧
    (s.Functions.find?
        (fun e => decide (e.1 ≤ s.Ip - 1) && decide (s.Ip - 1 < s.Bytecode.length)) = none →
      execute fa s 25 =
        .ok { s with
                CallStack := C ++ [{ caller with LocalStack := caller.LocalStack ++ [rv] }],
                Ip := callee.ReturnAddress }) := by
  have hcs' : s.CallStack = (C ++ [caller]) ++ [callee] := by simp [hcs]
  refine ⟨?_, ?_, ?_⟩
  · intro e hfind hne hnotstruct
    simp [execute, hcs', hT, hra, hfind, hne, hnotstruct]
  · intro e r hfind hstruct hptr hheap htag
    have hne : e.2.ReturnType ≠ rv.Kind := by simp [hstruct, hptr, KStruct, KPtr]
    simp [execute, hcs', hT, hra, hfind, hne, hstruct, hptr, hheap, htag]
  · intro hfind
    simp [execute, hcs', hT, hra, hfind]

/-- Witness for `C7_ret_typecheck`: the mismatch branch is fatal at a
concrete state; the Struct/Ptr exception accepts a Ptr to a
Struct-tagged region; and the no-entry branch accepts a mismatched
return unchecked. -/
theorem C7_ret_typecheck_witness :
    execute faZero
        ⟨10, [0, 0, 0, 0, 0, 0, 0, 0, 0, 0, 0], true,
          [⟨[], sentinel, []⟩, ⟨[], 3, [Int32Value 8]⟩],
          ⟨[]⟩, [(9, ⟨9, 0, 1, false, []⟩)], [], [], []⟩ 25 =
      .error "Return type mismatch" ∧
    execute faZero
        ⟨10, [0, 0, 0, 0, 0, 0, 0, 0, 0, 0, 0], true,
          [⟨[], sentinel, []⟩, ⟨[], 3, [PtrValue 100]⟩],
          ⟨[(100, ⟨[6, 0], none⟩)]⟩, [(9, ⟨9, 0, 6, false, []⟩)], [], [], []⟩ 25 =
      .ok ⟨3, [0, 0, 0, 0, 0, 0, 0, 0, 0, 0, 0], true,
            [⟨[], sentinel, [PtrValue 100]⟩],
            ⟨[(100, ⟨[6, 0], none⟩)]⟩, [(9, ⟨9, 0, 6, false, []⟩)], [], [], []⟩ ∧
    execute faZero
        ⟨10, [0, 0, 0, 0, 0, 0, 0, 0, 0, 0, 0], true,
          [⟨[], sentinel, []⟩, ⟨[], 3, [Int32Value 8]⟩],
          ⟨[]⟩, [(20, ⟨20, 0, 1, false, []⟩)], [], [], []⟩ 25 =
      .ok ⟨3, [0, 0, 0, 0, 0, 0, 0, 0, 0, 0, 0], true,
            [⟨[], sentinel, [Int32Value 8]⟩],
            ⟨[]⟩, [(20, ⟨20, 0, 1, false, []⟩)], [], [], []⟩ := by
  refine ⟨?_, ?_, ?_⟩
  · exact (C7_ret_typecheck faZero
      ⟨10, [0, 0, 0, 0, 0, 0, 0, 0, 0, 0, 0], true,
        [⟨[], sentinel, []⟩, ⟨[], 3, [Int32Value 8]⟩],
        ⟨[]⟩, [(9, ⟨9, 0, 1, false, []⟩)], [], [], []⟩
      [] ⟨[], sentinel, []⟩ ⟨[], 3, [Int32Value 8]⟩ [] (Int32Value 8)
      rfl rfl (by decide)).1 (9, ⟨9, 0, 1, false, []⟩) (by decide)
      (by decide) (by decide)
  · exact (C7_ret_typecheck faZero
      ⟨10, [0, 0, 0, 0, 0, 0, 0, 0, 0, 0, 0], true,
        [⟨[], sentinel, []⟩, ⟨[], 3, [PtrValue 100]⟩],
        ⟨[(100, ⟨[6, 0], none⟩)]⟩, [(9, ⟨9, 0, 6, false, []⟩)], [], [], []⟩
      [] ⟨[], sentinel, []⟩ ⟨[], 3, [PtrValue 100]⟩ [] (PtrValue 100)
      rfl rfl (by decide)).2.1 (9, ⟨9, 0, 6, false, []⟩) ⟨[6, 0], none⟩ (by decide)
      rfl rfl (by decide) (by decide)
  · exact (C7_ret_typecheck faZero
      ⟨10, [0, 0, 0, 0, 0, 0, 0, 0, 0, 0, 0], true,
        [⟨[], sentinel, []⟩, ⟨[], 3, [Int32Value 8]⟩],
        ⟨[]⟩, [(20, ⟨20, 0, 1, false, []⟩)], [], [], []⟩
      [] ⟨[], sentinel, []⟩ ⟨[], 3, [Int32Value 8]⟩ [] (Int32Value 8)
      rfl rfl (by decide)).2.2 (by decide)

/-! ## Claim C8: invariants of the function-table scan -/

theorem insertMap_append {α β : Type} [DecidableEq α] (m : List (α × β)) (k : α) (v : β)
    (h : ∀ e ∈ m, ¬ e.1 = k) : insertMap m k v = m ++ [(k, v)] := by
  unfold insertMap
  have hf : m.find? (fun e => e.1 = k) = none := by
    rw [List.find?_eq_none]
    intro e he
    simpa using h e he
  simp [hf]

/-- Invariant of `scanFunctions`: on success the table keys are
strictly increasing (so no entry is ever overwritten), every entry is
keyed by its own `Address`, every main entry is void-returning and
keyed by the final main address, and a found main is in the table. -/
theorem scanFunctions_ok (bc : Bytes) (fuel : Nat) :
    ∀ (ip : Nat) (acc : List (Nat × FunctionSignature)) (foundMain : Bool) (mainAddr : Nat)
      (fns : List (Nat × FunctionSignature)) (fm : Bool) (ma : Nat),
      scanFunctions bc fuel ip acc foundMain mainAddr = .ok (fns, fm, ma) →
      (∀ e ∈ acc, e.1 ≤ ip) →
      List.Pairwise (fun e1 e2 => e1.1 < e2.1) acc →
      (∀ e ∈ acc, e.2.Address = e.1 ∧
        (e.2.isMain = true → foundMain = true ∧ e.2.ReturnType = KVoid ∧ e.1 = mainAddr)) →
      (foundMain = true → ∃ sig, (mainAddr, sig) ∈ acc ∧ sig.isMain = true) →
      List.Pairwise (fun e1 e2 => e1.1 < e2.1) fns ∧
      (∀ e ∈ fns, e.2.Address = e.1 ∧
        (e.2.isMain = true → fm = true ∧ e.2.ReturnType = KVoid ∧ e.1 = ma)) ∧
      (fm = true → ∃ sig, (ma, sig) ∈ fns ∧ sig.isMain = true) := by
  induction fuel with
  | zero =>
    intro ip acc foundMain mainAddr fns fm ma h
    simp [scanFunctions] at h
  | succ fuel ih =>
    intro ip acc foundMain mainAddr fns fm ma h Hle Hsort Hmain Hex
    rw [scanFunctions] at h
    by_cases hip : ip < bc.length
    · rw [if_pos hip] at h
      by_cases hb : readByte bc ip = 37
      · rw [if_pos hb] at h
        by_cases hlen : ip + 5 ≤ bc.length
        · rw [if_pos hlen] at h
          simp only [] at h
          generalize hA :
            (if readByte bc (ip + 4) = KStruct then
              match scanZ (bc.drop (ip + 5)) with
              | some n => (readBytes bc (ip + 5) n, ip + 5 + n + 1)
              | none => (bc.drop (ip + 5), bc.length + 1)
            else (([] : Bytes), ip + 5)) = A at h
          have hA5 : ip + 5 ≤ A.2 := by
            rw [← hA]
            by_cases hrt : readByte bc (ip + 4) = KStruct
            · rw [if_pos hrt]
              rcases hscan : scanZ (bc.drop (ip + 5)) with _ | n <;> simp <;> omega
            · rw [if_neg hrt]
          have hfresh : ∀ e ∈ acc, ¬ e.1 = A.2 := by
            intro e he
            have := Hle e he
            omega
          have hle' : ∀ e ∈ acc ++ [(A.2,
              (⟨A.2, readByte bc (ip + 2) * 256 + readByte bc (ip + 3),
                readByte bc (ip + 4), decide (readByte bc (ip + 1) = 39), A.1⟩ :
                FunctionSignature))], e.1 ≤ A.2 := by
            intro e he
            rcases List.mem_append.mp he with h1 | h1
            · have := Hle e h1; omega
            · simp at h1
              subst h1
              simp
          have hsort' : List.Pairwise (fun e1 e2 => e1.1 < e2.1) (acc ++ [(A.2,
              (⟨A.2, readByte bc (ip + 2) * 256 + readByte bc (ip + 3),
                readByte bc (ip + 4), decide (readByte bc (ip + 1) = 39), A.1⟩ :
                FunctionSignature))]) := by
            refine List.pairwise_append.mpr ⟨Hsort, List.pairwise_singleton _ _, ?_⟩
            intro e1 h1 e2 h2
            simp at h2
            subst h2
            have := Hle e1 h1
            simp
            omega
          by_cases hm : readByte bc (ip + 1) = 39
          · -- A main header.
            by_cases hfm : foundMain = true
            · rw [if_pos ⟨hm, by simp [hfm]⟩] at h
              exact absurd h (by simp)
            · rw [if_neg (by simp [hfm])] at h
              by_cases hv : readByte bc (ip + 4) = KVoid
              · rw [if_neg (by simp [hv])] at h
                rw [if_pos hm] at h
                rw [insertMap_append acc A.2 _ hfresh] at h
                refine ih A.2 _ _ _ fns fm ma h hle' hsort' ?_ ?_
                · intro e he
                  rcases List.mem_append.mp he with h1 | h1
                  · refine ⟨(Hmain e h1).1, ?_⟩
                    intro hem
                    exact absurd ((Hmain e h1).2 hem).1 hfm
                  · simp at h1
                    subst h1
                    refine ⟨rfl, ?_⟩
                    intro _
                    exact ⟨by simp [hm], by simpa using hv, by simp [hm]⟩
                · intro _
                  refine ⟨⟨A.2, readByte bc (ip + 2) * 256 + readByte bc (ip + 3),
                    readByte bc (ip + 4), decide (readByte bc (ip + 1) = 39), A.1⟩, ?_, ?_⟩
                  · exact List.mem_append.mpr (Or.inr (by simp))
                  · simp [hm]
              · rw [if_pos ⟨hm, by simpa using hv⟩] at h
                exact absurd h (by simp)
          · -- Not a main header.
            rw [if_neg (by simp [hm])] at h
            rw [if_neg (by simp [hm])] at h
            rw [insertMap_append acc A.2 _ hfresh] at h
            refine ih A.2 _ _ _ fns fm ma h hle' hsort' ?_ ?_
            · intro e he
              rcases List.mem_append.mp he with h1 | h1
              · refine ⟨(Hmain e h1).1, ?_⟩
                intro hem
                have hprev := (Hmain e h1).2 hem
                exact ⟨by simp [hprev.1], hprev.2.1, by simpa [hm] using hprev.2.2⟩
              · simp at h1
                subst h1
                refine ⟨rfl, ?_⟩
                intro hem
                exact absurd hem (by simp [hm])
            · intro hf
              have hf' : foundMain = true := by simpa [hm] using hf
              obtain ⟨sig, hs1, hs2⟩ := Hex hf'
              refine ⟨sig, ?_, hs2⟩
              have hmm : (if readByte bc (ip + 1) = 39 then A.2 else mainAddr) = mainAddr := by
                simp [hm]
              rw [hmm]
              exact List.mem_append.mpr (Or.inl hs1)
        · rw [if_neg hlen] at h
          exact absurd h (by simp)
      · rw [if_neg hb] at h
        refine ih (ip + 1) acc foundMain mainAddr fns fm ma h ?_ Hsort Hmain Hex
        intro e he
        have := Hle e he
        omega
    · rw [if_neg hip] at h
      simp at h
      obtain ⟨h1, h2, h3⟩ := h
      subst h1; subst h2; subst h3
      exact ⟨Hsort, Hmain, Hex⟩

theorem readByte_drop (bc : Bytes) (ip k : Nat) :
    readByte (bc.drop ip) k = readByte bc (ip + k) := by
  simp [readByte, List.getD, List.getElem?_drop]

theorem readByte_append_right (l1 l2 : Bytes) (k : Nat) :
    readByte (l1 ++ l2) (l1.length + k) = readByte l2 k := by
  simp [readByte, List.getD, List.getElem?_append_right]

/-- The prescan steps over a run of non-FUNC bytes one byte and one
fuel unit at a time. -/
theorem scanFunctions_skip (bc : Bytes) :
    ∀ (n fuel ip : Nat) (acc : List (Nat × FunctionSignature)) (fm : Bool) (ma : Nat),
      n ≤ fuel →
      (∀ k, k < n → ip + k < bc.length ∧ readByte bc (ip + k) ≠ 37) →
      scanFunctions bc fuel ip acc fm ma =
        scanFunctions bc (fuel - n) (ip + n) acc fm ma := by
  intro n
  induction n with
  | zero => intro fuel ip acc fm ma _ _; rfl
  | succ n ih =>
    intro fuel ip acc fm ma hn hcond
    rcases fuel with _ | F
    · omega
    · have h0 := hcond 0 (by omega)
      rw [scanFunctions, if_pos (by simpa using h0.1), if_neg (by simpa using h0.2),
        show F + 1 - (n + 1) = F - n from by omega,
        show ip + (n + 1) = ip + 1 + n from by omega]
      exact ih F (ip + 1) acc fm ma (by omega) (fun k hk => by
        have h1 := hcond (k + 1) (by omega)
        rw [show ip + 1 + k = ip + (k + 1) from by omega]
        exact h1)

theorem readByte_append_left (l1 l2 : Bytes) (k : Nat) (h : k < l1.length) :
    readByte (l1 ++ l2) k = readByte l1 k := by
  simp [readByte, List.getD, List.getElem?_append_left h]

theorem readByte_mem (l : Bytes) (k : Nat) (hk : k < l.length) : readByte l k ∈ l := by
  rw [readByte, List.getD_eq_getElem l 0 hk]
  exact List.getElem_mem hk

/-- On a stream of well-formed function chunks, the prescan walk is the
header-level fold `scanHeaders`. -/
theorem scanFunctions_encodeProg (fs : List FnHeader) :
    ∀ (bc : Bytes) (ip fuel : Nat) (acc : List (Nat × FunctionSignature))
      (fm : Bool) (ma : Nat),
      (∀ f ∈ fs, f.returnType ≠ KStruct ∧ ∀ b ∈ f.body, b ≠ 37) →
      bc.drop ip = encodeProg fs →
      bc.length = ip + (encodeProg fs).length →
      (encodeProg fs).length < fuel →
      scanFunctions bc fuel ip acc fm ma = scanHeaders fs ip acc fm ma := by
  induction fs with
  | nil =>
    intro bc ip fuel acc fm ma _ _ hlen hfuel
    rcases fuel with _ | F
    · omega
    · rw [scanFunctions, if_neg (by simp [encodeProg] at hlen; omega)]
      rfl
  | cons f rest ih =>
    intro bc ip fuel acc fm ma hwf hdrop hlen hfuel
    have hf := hwf f (by simp)
    have hrt : f.returnType ≠ KStruct := hf.1
    have hbody : ∀ b ∈ f.body, b ≠ 37 := hf.2
    have hwfrest : ∀ g ∈ rest, g.returnType ≠ KStruct ∧ ∀ b ∈ g.body, b ≠ 37 :=
      fun g hg => hwf g (by simp [hg])
    have hb : ∀ k, readByte bc (ip + k) = readByte (encodeFn f ++ encodeProg rest) k := by
      intro k
      rw [← readByte_drop, hdrop]
      rfl
    have hL : (encodeProg (f :: rest)).length =
        5 + f.body.length + (encodeProg rest).length := by
      simp [encodeProg, encodeFn]
      omega
    have hlen2 : bc.length = ip + 5 + f.body.length + (encodeProg rest).length := by
      rw [hlen, hL]
      omega
    have hfuel2 : 5 + f.body.length + (encodeProg rest).length < fuel := by
      rw [hL] at hfuel
      exact hfuel
    have hdrop2 : bc.drop (ip + 5 + f.body.length) = encodeProg rest := by
      have e1 : ip + 5 + f.body.length = ip + (encodeFn f).length := by
        simp [encodeFn]
        omega
      rw [e1, ← List.drop_drop, hdrop]
      show (encodeFn f ++ encodeProg rest).drop (encodeFn f).length = encodeProg rest
      rw [List.drop_left]
    have hskip : ∀ k, k < f.body.length →
        ip + 5 + k < bc.length ∧ readByte bc (ip + 5 + k) ≠ 37 := by
      intro k hk
      refine ⟨by omega, ?_⟩
      rw [show ip + 5 + k = ip + (5 + k) from by omega, hb (5 + k)]
      have e2 : encodeFn f ++ encodeProg rest =
          [37, if f.isMain then 39 else 38, f.p1, f.p2, f.returnType] ++
            (f.body ++ encodeProg rest) := by
        rw [encodeFn, List.append_assoc]
      rw [e2, show 5 + k = ([37, if f.isMain then 39 else 38, f.p1, f.p2,
          f.returnType] : Bytes).length + k from by simp, readByte_append_right,
        readByte_append_left _ _ _ hk]
      exact hbody _ (readByte_mem f.body k hk)
    rcases fuel with _ | F
    · omega
    · have h0 : readByte bc ip = 37 := by
        have e := hb 0
        simp only [Nat.add_zero] at e
        rw [e]
        rfl
      have h1 : readByte bc (ip + 1) = if f.isMain then 39 else 38 := by rw [hb]; rfl
      have h2 : readByte bc (ip + 2) = f.p1 := by rw [hb]; rfl
      have h3 : readByte bc (ip + 3) = f.p2 := by rw [hb]; rfl
      have h4 : readByte bc (ip + 4) = f.returnType := by rw [hb]; rfl
      rw [scanFunctions, if_pos (by omega), if_pos h0, if_pos (by omega)]
      simp only []
      rw [h1, h2, h3, h4, if_neg hrt]
      rw [scanHeaders]
      cases hm : f.isMain with
      | true =>
        cases hfm : fm with
        | true => simp [hm, hfm]
        | false =>
          by_cases hv : f.returnType = KVoid
          · simp only [hm, hfm, hv]
            simp
            rw [scanFunctions_skip bc f.body.length F (ip + 5) _ _ _
              (by omega) (fun k hk => hskip k hk)]
            exact ih bc (ip + 5 + f.body.length) (F - f.body.length) _ _ _
              hwfrest hdrop2 (by omega) (by omega)
          · simp [hm, hfm, hv]
      | false =>
        simp only [hm]
        simp
        rw [scanFunctions_skip bc f.body.length F (ip + 5) _ _ _
          (by omega) (fun k hk => hskip k hk)]
        exact ih bc (ip + 5 + f.body.length) (F - f.body.length) _ _ _
          hwfrest hdrop2 (by omega) (by omega)

/-- The header fold over chunks with no main leaves the found-main flag
false. -/
theorem scanHeaders_no_main (fs : List FnHeader) :
    ∀ (ip : Nat) (acc : List (Nat × FunctionSignature)) (ma : Nat),
      (∀ f ∈ fs, f.isMain = false) →
      ∃ fns ma2, scanHeaders fs ip acc false ma = .ok (fns, false, ma2) := by
  induction fs with
  | nil => intro ip acc ma _; exact ⟨acc, ma, rfl⟩
  | cons f rest ih =>
    intro ip acc ma hnm
    have hf : f.isMain = false := hnm f (by simp)
    rw [scanHeaders]
    simp [hf]
    exact ih _ _ _ (fun g hg => hnm g (by simp [hg]))

/-- The header fold hits the non-Void-main fatal branch at the first
main chunk when that chunk is not Void-returning. -/
theorem scanHeaders_nonvoid (f : FnHeader) (post : List FnHeader)
    (hm : f.isMain = true) (hv : f.returnType ≠ KVoid) (pre : List FnHeader) :
    ∀ (ip : Nat) (acc : List (Nat × FunctionSignature)) (ma : Nat),
      (∀ g ∈ pre, g.isMain = false) →
      scanHeaders (pre ++ f :: post) ip acc false ma =
        .error "Main function should always be void" := by
  induction pre with
  | nil =>
    intro ip acc ma _
    rw [List.nil_append, scanHeaders]
    simp [hm, hv]
  | cons g rest ih =>
    intro ip acc ma hnm
    have hg : g.isMain = false := hnm g (by simp)
    rw [List.cons_append, scanHeaders]
    simp [hg]
    exact ih _ _ _ (fun g2 hg2 => hnm g2 (by simp [hg2]))

/-- Once the found-main flag is set, the header fold hits the
multiple-mains fatal branch at the next main chunk. -/
theorem scanHeaders_second_main (f2 : FnHeader) (post : List FnHeader)
    (hm2 : f2.isMain = true) (mid : List FnHeader) :
    ∀ (ip : Nat) (acc : List (Nat × FunctionSignature)) (ma : Nat),
      (∀ g ∈ mid, g.isMain = false) →
      scanHeaders (mid ++ f2 :: post) ip acc true ma =
        .error "Multiple main functions" := by
  induction mid with
  | nil =>
    intro ip acc ma _
    rw [List.nil_append, scanHeaders]
    simp [hm2]
  | cons g rest ih =>
    intro ip acc ma hnm
    have hg : g.isMain = false := hnm g (by simp)
    rw [List.cons_append, scanHeaders]
    simp [hg]
    exact ih _ _ _ (fun g2 hg2 => hnm g2 (by simp [hg2]))

/-- Two main chunks (the first Void-returning, so the walk gets past
it) end in the multiple-mains fatal branch. -/
theorem scanHeaders_two_mains (f1 f2 : FnHeader) (mid post : List FnHeader)
    (hm1 : f1.isMain = true) (hv1 : f1.returnType = KVoid) (hm2 : f2.isMain = true)
    (hmid : ∀ g ∈ mid, g.isMain = false) (pre : List FnHeader) :
    ∀ (ip : Nat) (acc : List (Nat × FunctionSignature)) (ma : Nat),
      (∀ g ∈ pre, g.isMain = false) →
      scanHeaders (pre ++ f1 :: (mid ++ f2 :: post)) ip acc false ma =
        .error "Multiple main functions" := by
  induction pre with
  | nil =>
    intro ip acc ma _
    rw [List.nil_append, scanHeaders]
    simp [hm1, hv1]
    exact scanHeaders_second_main f2 post hm2 mid _ _ _ hmid
  | cons g rest ih =>
    intro ip acc ma hnm
    have hg : g.isMain = false := hnm g (by simp)
    rw [List.cons_append, scanHeaders]
    simp [hg]
    exact ih _ _ _ (fun g2 hg2 => hnm g2 (by simp [hg2]))

/-- After the unique main, a run of non-main chunks keeps the flag and
the main address. -/
theorem scanHeaders_after_main (post : List FnHeader) :
    ∀ (ip : Nat) (acc : List (Nat × FunctionSignature)) (ma : Nat),
      (∀ g ∈ post, g.isMain = false) →
      ∃ fns, scanHeaders post ip acc true ma = .ok (fns, true, ma) := by
  induction post with
  | nil => intro ip acc ma _; exact ⟨acc, rfl⟩
  | cons g rest ih =>
    intro ip acc ma hnm
    have hg : g.isMain = false := hnm g (by simp)
    rw [scanHeaders]
    simp [hg]
    exact ih _ _ _ (fun g2 hg2 => hnm g2 (by simp [hg2]))

/-- A stream with exactly one main chunk (Void-returning) folds to ok
with the flag set and the main address five bytes past that chunk's
start. -/
theorem scanHeaders_one_main (f : FnHeader) (post : List FnHeader)
    (hm : f.isMain = true) (hv : f.returnType = KVoid)
    (hpost : ∀ g ∈ post, g.isMain = false) (pre : List FnHeader) :
    ∀ (ip : Nat) (acc : List (Nat × FunctionSignature)) (ma : Nat),
      (∀ g ∈ pre, g.isMain = false) →
      ∃ fns, scanHeaders (pre ++ f :: post) ip acc false ma =
        .ok (fns, true, ip + (encodeProg pre).length + 5) := by
  induction pre with
  | nil =>
    intro ip acc ma _
    rw [List.nil_append, scanHeaders]
    simp only [hm, hv]
    simp [encodeProg]
    exact scanHeaders_after_main post _ _ _ hpost
  | cons g rest ih =>
    intro ip acc ma hnm
    have hg : g.isMain = false := hnm g (by simp)
    rw [List.cons_append, scanHeaders]
    simp [hg]
    obtain ⟨fns, hs⟩ := ih (ip + 5 + g.body.length) _ _
      (fun g2 hg2 => hnm g2 (by simp [hg2]))
    refine ⟨fns, ?_⟩
    rw [hs]
    have : ip + 5 + g.body.length + (encodeProg rest).length + 5 =
        ip + (encodeProg (g :: rest)).length + 5 := by
      simp [encodeProg, encodeFn]
      omega
    rw [this]

/-- A prescan error is a `NewVm` error. -/
theorem NewVm_of_buildFunctionTable_error (bc input : Bytes) (e : String)
    (h : buildFunctionTable bc = .error e) : NewVm bc input = .error e := by
  simp [NewVm, Bind.bind, h, Except.bind]

/-- C8: (success) when the prescan succeeds, the function table
contains a main entry whose return kind is Void, keyed (like every
entry) by its entry address, the table keys are strictly increasing so
that entry is unique, every main entry sits at the returned initial
address, and `NewVm` installs that address as the initial instruction
pointer; on a stream of function chunks with exactly one Void main the
prescan succeeds and the initial instruction pointer is the offset
immediately after that chunk's FUNC header.  (Fatal errors) on a
stream of function chunks with no main, the prescan and `NewVm` fail
fatally with "No main function found"; when the first main chunk is
not Void-returning, with "Main function should always be void"; and
with a second main chunk, with "Multiple main functions". -/
theorem C8_prescan_main :
    (∀ (bc : Bytes) (fns : List (Nat × FunctionSignature)) (ip0 : Nat),
      buildFunctionTable bc = .ok (fns, ip0) →
      (∃ sig, (ip0, sig) ∈ fns ∧ sig.isMain = true ∧ sig.ReturnType = KVoid ∧
        sig.Address = ip0) ∧
      (∀ a sig, (a, sig) ∈ fns → sig.isMain = true →
        a = ip0 ∧ sig.ReturnType = KVoid ∧ sig.Address = a) ∧
      List.Pairwise (fun e1 e2 => e1.1 < e2.1) fns ∧
      (∀ input s0, NewVm bc input = .ok s0 → s0.Ip = ip0 ∧ s0.Functions = fns)) ∧
    (∀ (pre post : List FnHeader) (f : FnHeader),
      (∀ g ∈ pre ++ f :: post, g.returnType ≠ KStruct ∧ ∀ b ∈ g.body, b ≠ 37) →
      (∀ g ∈ pre, g.isMain = false) → (∀ g ∈ post, g.isMain = false) →
      f.isMain = true → f.returnType = KVoid →
      ∃ fns, buildFunctionTable (encodeProg (pre ++ f :: post)) =
        .ok (fns, (encodeProg pre).length + 5)) ∧
    (∀ fs : List FnHeader,
      (∀ g ∈ fs, g.returnType ≠ KStruct ∧ ∀ b ∈ g.body, b ≠ 37) →
      (∀ g ∈ fs, g.isMain = false) →
      buildFunctionTable (encodeProg fs) = .error "No main function found" ∧
      ∀ input, NewVm (encodeProg fs) input = .error "No main function found") ∧
    (∀ (pre post : List FnHeader) (f : FnHeader),
      (∀ g ∈ pre ++ f :: post, g.returnType ≠ KStruct ∧ ∀ b ∈ g.body, b ≠ 37) →
      (∀ g ∈ pre, g.isMain = false) → f.isMain = true → f.returnType ≠ KVoid →
      buildFunctionTable (encodeProg (pre ++ f :: post)) =
        .error "Main function should always be void" ∧
      ∀ input, NewVm (encodeProg (pre ++ f :: post)) input =
        .error "Main function should always be void") ∧
    (∀ (pre mid post : List FnHeader) (f1 f2 : FnHeader),
      (∀ g ∈ pre ++ f1 :: (mid ++ f2 :: post),
        g.returnType ≠ KStruct ∧ ∀ b ∈ g.body, b ≠ 37) →
      (∀ g ∈ pre, g.isMain = false) → (∀ g ∈ mid, g.isMain = false) →
      f1.isMain = true → f1.returnType = KVoid → f2.isMain = true →
      buildFunctionTable (encodeProg (pre ++ f1 :: (mid ++ f2 :: post))) =
        .error "Multiple main functions" ∧
      ∀ input, NewVm (encodeProg (pre ++ f1 :: (mid ++ f2 :: post))) input =
        .error "Multiple main functions") := by
  refine ⟨?_, ?_, ?_, ?_, ?_⟩
  · intro bc fns ip0 h
    have h0 := h
    unfold buildFunctionTable at h
    rcases hscan : scanFunctions bc (bc.length + 1) 0 [] false 0 with e | r
    · rw [hscan] at h
      exact absurd h (by simp [Bind.bind, Except.bind])
    · obtain ⟨fns', fm', ma'⟩ := r
      rw [hscan] at h
      simp only [Bind.bind, Except.bind] at h
      by_cases hfm : fm' = true
      · rw [hfm] at h
        simp at h
        obtain ⟨rfl, rfl⟩ := h
        have hinv := scanFunctions_ok bc (bc.length + 1) 0 [] false 0 fns' fm' ma' hscan
          (by intro e he; simp at he) (by simp) (by intro e he; simp at he)
          (by intro hc; simp at hc)
        obtain ⟨Hsort, Hmn, Hex⟩ := hinv
        obtain ⟨sig, hs1, hs2⟩ := Hex hfm
        have hprops := Hmn (ma', sig) hs1
        refine ⟨⟨sig, hs1, hs2, (hprops.2 hs2).2.1, hprops.1⟩, ?_, Hsort, ?_⟩
        · intro a sig' hmem hmain
          have hp := Hmn (a, sig') hmem
          exact ⟨(hp.2 hmain).2.2, (hp.2 hmain).2.1, hp.1⟩
        · intro input s0 hnv
          unfold NewVm at hnv
          rw [h0] at hnv
          simp only [Bind.bind, Except.bind] at hnv
          by_cases hd : bc.length > 0 ∧ readByte bc 0 = 40
          · rw [if_pos hd] at hnv
            rcases hss : scanStructs bc (bc.length + 1) 0 [] with e | structs
            · rw [hss] at hnv
              exact absurd hnv (by simp)
            · rw [hss] at hnv
              simp only [Except.ok.injEq] at hnv
              rw [← hnv]
              exact ⟨rfl, rfl⟩
          · rw [if_neg hd] at hnv
            simp only [pure, Except.pure, Except.ok.injEq] at hnv
            rw [← hnv]
            exact ⟨rfl, rfl⟩
      · rw [if_neg hfm] at h
        exact absurd h (by simp)
  · intro pre post f hwf hpre hpost hm hv
    have hchar := scanFunctions_encodeProg (pre ++ f :: post)
      (encodeProg (pre ++ f :: post)) 0 ((encodeProg (pre ++ f :: post)).length + 1)
      [] false 0 hwf (by simp) (by simp) (by omega)
    obtain ⟨fns, hs⟩ := scanHeaders_one_main f post hm hv hpost pre 0 [] 0 hpre
    refine ⟨fns, ?_⟩
    unfold buildFunctionTable
    rw [hchar, hs]
    simp [Bind.bind, Except.bind]
  · intro fs hwf hnm
    have hchar := scanFunctions_encodeProg fs (encodeProg fs) 0
      ((encodeProg fs).length + 1) [] false 0 hwf (by simp) (by simp) (by omega)
    obtain ⟨fns, ma2, hs⟩ := scanHeaders_no_main fs 0 [] 0 hnm
    have herr : buildFunctionTable (encodeProg fs) = .error "No main function found" := by
      unfold buildFunctionTable
      rw [hchar, hs]
      simp [Bind.bind, Except.bind]
    exact ⟨herr, fun input => NewVm_of_buildFunctionTable_error _ input _ herr⟩
  · intro pre post f hwf hpre hm hv
    have hchar := scanFunctions_encodeProg (pre ++ f :: post)
      (encodeProg (pre ++ f :: post)) 0 ((encodeProg (pre ++ f :: post)).length + 1)
      [] false 0 hwf (by simp) (by simp) (by omega)
    have hs := scanHeaders_nonvoid f post hm hv pre 0 [] 0 hpre
    have herr : buildFunctionTable (encodeProg (pre ++ f :: post)) =
        .error "Main function should always be void" := by
      unfold buildFunctionTable
      rw [hchar, hs]
      simp [Bind.bind, Except.bind]
    exact ⟨herr, fun input => NewVm_of_buildFunctionTable_error _ input _ herr⟩
  · intro pre mid post f1 f2 hwf hpre hmid hm1 hv1 hm2
    have hchar := scanFunctions_encodeProg (pre ++ f1 :: (mid ++ f2 :: post))
      (encodeProg (pre ++ f1 :: (mid ++ f2 :: post))) 0
      ((encodeProg (pre ++ f1 :: (mid ++ f2 :: post))).length + 1)
      [] false 0 hwf (by simp) (by simp) (by omega)
    have hs := scanHeaders_two_mains f1 f2 mid post hm1 hv1 hm2 hmid pre 0 [] 0 hpre
    have herr : buildFunctionTable (encodeProg (pre ++ f1 :: (mid ++ f2 :: post))) =
        .error "Multiple main functions" := by
      unfold buildFunctionTable
      rw [hchar, hs]
      simp [Bind.bind, Except.bind]
    exact ⟨herr, fun input => NewVm_of_buildFunctionTable_error _ input _ herr⟩

/-- Witness for `C8_prescan_main`: the five-byte stream holding exactly
one Void MAIN header yields the initial instruction pointer 5 with the
single main at entry 5; a one-chunk stream with exactly one Void main
succeeds with initial pointer 5; a stream with no main chunk is fatal
with "No main function found"; a non-Void main chunk is fatal with
"Main function should always be void"; and two Void main chunks are
fatal with "Multiple main functions". -/
theorem C8_prescan_main_witness :
    (∃ sig, ((5 : Nat), sig) ∈ [((5 : Nat), (⟨5, 0, 5, true, []⟩ : FunctionSignature))] ∧
      sig.isMain = true ∧ sig.ReturnType = KVoid ∧ sig.Address = 5) ∧
    (∀ s0, NewVm [37, 39, 0, 0, 5] [] = .ok s0 → s0.Ip = 5) ∧
    (∃ fns, buildFunctionTable (encodeProg [⟨true, 0, 0, KVoid, [0]⟩]) = .ok (fns, 5)) ∧
    buildFunctionTable (encodeProg [⟨false, 0, 0, KInt32, []⟩]) =
      .error "No main function found" ∧
    buildFunctionTable (encodeProg [⟨true, 0, 0, KInt32, []⟩]) =
      .error "Main function should always be void" ∧
    buildFunctionTable (encodeProg [⟨true, 0, 0, KVoid, []⟩, ⟨true, 0, 0, KVoid, []⟩]) =
      .error "Multiple main functions" := by
  refine ⟨(C8_prescan_main.1 [37, 39, 0, 0, 5] [(5, ⟨5, 0, 5, true, []⟩)] 5 rfl).1,
    fun s0 hs =>
      ((C8_prescan_main.1 [37, 39, 0, 0, 5] [(5, ⟨5, 0, 5, true, []⟩)] 5 rfl).2.2.2
        [] s0 hs).1,
    ?_, ?_, ?_, ?_⟩
  · exact C8_prescan_main.2.1 [] [] ⟨true, 0, 0, KVoid, [0]⟩
      (by decide) (by decide) (by decide) rfl rfl
  · exact (C8_prescan_main.2.2.1 [⟨false, 0, 0, KInt32, []⟩] (by decide) (by decide)).1
  · exact (C8_prescan_main.2.2.2.1 [] [] ⟨true, 0, 0, KInt32, []⟩
      (by decide) (by decide) rfl (by decide)).1
  · exact (C8_prescan_main.2.2.2.2 [] [] [] ⟨true, 0, 0, KVoid, []⟩ ⟨true, 0, 0, KVoid, []⟩
      (by decide) (by decide) (by decide) rfl rfl rfl).1

/-! ## Byte-buffer lemmas -/

theorem writeBytes_length (m src : Bytes) (off : Nat) :
    (writeBytes m off src).length = m.length := by
  unfold writeBytes
  split
  · rename_i hle
    simp
    omega
  · rfl

theorem leBytes_length (n v : Nat) : (leBytes n v).length = n := by
  induction n generalizing v with
  | zero => rfl
  | succ n ihh => simp [leBytes, ihh]

theorem leVal_leBytes (n v : Nat) : leVal (leBytes n v) = v % 256 ^ n := by
  induction n generalizing v with
  | zero => simp [leBytes, leVal, Nat.mod_one]
  | succ n ihh =>
    rw [leBytes, leVal, ihh, pow_succ, mul_comm (256 ^ n) 256, Nat.mod_mul]
    congr 1
    omega

theorem readBytes_writeBytes_self (m src : Bytes) (off : Nat)
    (h : off + src.length ≤ m.length) :
    readBytes (writeBytes m off src) off src.length = src := by
  unfold writeBytes readBytes
  rw [if_pos h]
  have hto : (m.take off).length = off := by simp; omega
  rw [List.append_assoc, List.drop_left' hto, List.take_left' rfl]

theorem readByte_writeBytes_lt (m src : Bytes) (off i : Nat) (hi : i < off) :
    readByte (writeBytes m off src) i = readByte m i := by
  unfold writeBytes readByte
  split
  · rename_i hle
    have hto : (m.take off).length = off := by simp; omega
    rw [List.getD_eq_getElem?_getD,
      List.getElem?_append_left (by simp; omega),
      List.getElem?_append_left (by rw [hto]; omega),
      List.getElem?_take_of_lt hi, ← List.getD_eq_getElem?_getD]
  · rfl

theorem readBytes_writeBytes_ge (m src : Bytes) (off off1 n : Nat)
    (h1 : off1 + n ≤ off) :
    readBytes (writeBytes m off src) off1 n = readBytes m off1 n := by
  unfold writeBytes readBytes
  split
  · rename_i hle
    apply List.ext_getElem?
    intro j
    by_cases hj : j < n
    · have hto : (m.take off).length = off := by simp; omega
      rw [List.getElem?_take_of_lt hj, List.getElem?_take_of_lt hj,
        List.getElem?_drop, List.getElem?_drop,
        List.getElem?_append_left (by simp; omega),
        List.getElem?_append_left (by rw [hto]; omega),
        List.getElem?_take_of_lt (by omega)]
    · have hj' := Nat.le_of_not_lt hj
      rw [List.getElem?_eq_none (by simp; omega), List.getElem?_eq_none (by simp; omega)]
  · rfl

theorem readByte_writeBytes_self (m src : Bytes) (off i : Nat) (hi : i < src.length)
    (h : off + src.length ≤ m.length) :
    readByte (writeBytes m off src) (off + i) = src.getD i 0 := by
  unfold writeBytes readByte
  rw [if_pos h]
  have hto : (m.take off).length = off := by simp; omega
  rw [List.getD_eq_getElem?_getD,
    List.getElem?_append_left (by simp; omega),
    List.getElem?_append_right (by rw [hto]; omega), hto,
    Nat.add_sub_cancel_left, ← List.getD_eq_getElem?_getD]

/-! ## Heap lemmas -/

theorem Heap.find_update_self (h : Heap) (p : Nat) (r0 r1 : Region)
    (hf : h.find p = some r0) : (h.update p r1).find p = some r1 := by
  obtain ⟨l⟩ := h
  unfold Heap.find Heap.update at *
  induction l with
  | nil => simp at hf
  | cons e t ihh =>
    by_cases he : e.1 = p
    · simp [List.find?, he]
    · simp only [List.map, List.find?, if_neg he] at *
      have hd : decide (e.1 = p) = false := by simp [he]
      rw [hd] at hf ⊢
      exact ihh hf

theorem le_foldr_max (l : List Nat) (x : Nat) (hx : x ∈ l) : x ≤ l.foldr max 0 := by
  induction l with
  | nil => simp at hx
  | cons a t ihh =>
    rcases List.mem_cons.mp hx with rfl | hx'
    · simp [List.foldr]
    · simp only [List.foldr]
      exact le_trans (ihh hx') (le_max_right _ _)

theorem Heap.not_mem_freshAddr (h : Heap) (e : Nat × Region) (he : e ∈ h.Memory) :
    ¬ e.1 = h.freshAddr := by
  have hle : e.1 + e.2.bytes.length ≤
      (h.Memory.map (fun e => e.1 + e.2.bytes.length)).foldr max 0 :=
    le_foldr_max _ _ (List.mem_map_of_mem _ he)
  unfold Heap.freshAddr pageSize
  omega

theorem Heap.find_insert_self (h : Heap) (p : Nat) (r : Region)
    (hfresh : ∀ e ∈ h.Memory, ¬ e.1 = p) : (h.insert p r).find p = some r := by
  obtain ⟨l⟩ := h
  unfold Heap.find Heap.insert at *
  simp only [] at *
  induction l with
  | nil => simp [List.find?]
  | cons e t ihh =>
    have hd : decide (e.1 = p) = false := by simp [hfresh e (by simp)]
    simp only [List.cons_append, List.find?, hd]
    exact ihh (fun e' he' => hfresh e' (by simp [he']))

theorem readBytes_writeBytes_self' (m src : Bytes) (off n : Nat) (hn : n = src.length)
    (h : off + src.length ≤ m.length) :
    readBytes (writeBytes m off src) off n = src := by
  subst hn
  exact readBytes_writeBytes_self m src off h

theorem readByte_writeBytes_self0 (m src : Bytes) (hs : 1 ≤ src.length)
    (h : src.length ≤ m.length) :
    readByte (writeBytes m 0 src) 0 = src.getD 0 0 := by
  have := readByte_writeBytes_self m src 0 0 (by omega) (by omega)
  simpa using this

/-- `StoreValue` of an Int32/Float32 value into a live region of at
least five bytes: the tag byte lands at offset 0, the four payload
bytes at offset 1, and no error is reported. -/
theorem Heap.StoreValue_scalar (h : Heap) (p : Nat) (r : Region) (v : Value)
    (hfind : h.find p = some r) (hlen : 5 ≤ r.bytes.length)
    (hk : v.Kind = KInt32 ∨ v.Kind = KFloat32) :
    h.StoreValue p v =
      (h.update p { r with bytes := writeLE (writeByte r.bytes 0 v.Kind) 1 4 v.Raw }, none) := by
  unfold Heap.StoreValue
  rw [hfind]
  have hwl : ∀ b : Nat, (writeByte r.bytes 0 b).length = r.bytes.length :=
    fun b => writeBytes_length _ _ _
  rcases hk with hk | hk <;>
    simp [hk, KInt32, KFloat32, KPtr, hwl, Nat.not_lt.mpr hlen]

/-- `LoadValue` after such a store reconstructs the stored value. -/
theorem Heap.LoadValue_scalar (h : Heap) (p : Nat) (r : Region) (v : Value)
    (hfind : h.find p = some r) (hlen : 5 ≤ r.bytes.length)
    (hk : v.Kind = KInt32 ∨ v.Kind = KFloat32) (hraw : v.Raw < 2 ^ 32) (hptr : v.Ptr = 0) :
    (h.update p { r with bytes := writeLE (writeByte r.bytes 0 v.Kind) 1 4 v.Raw }).LoadValue p =
      .ok v := by
  have hfound := h.find_update_self p r
    { r with bytes := writeLE (writeByte r.bytes 0 v.Kind) 1 4 v.Raw } hfind
  unfold Heap.LoadValue
  rw [hfound]
  have hwl1 : (writeByte r.bytes 0 v.Kind).length = r.bytes.length := writeBytes_length _ _ _
  have hwl2 : (writeLE (writeByte r.bytes 0 v.Kind) 1 4 v.Raw).length = r.bytes.length := by
    unfold writeLE
    rw [writeBytes_length, hwl1]
  have hkv : v.Kind < 256 := by rcases hk with hk | hk <;> simp [hk, KInt32, KFloat32]
  have htag : readByte (writeLE (writeByte r.bytes 0 v.Kind) 1 4 v.Raw) 0 = v.Kind := by
    unfold writeLE
    rw [readByte_writeBytes_lt _ _ _ _ (by omega)]
    unfold writeByte
    rw [readByte_writeBytes_self0 _ _ (by simp) (by simp; omega)]
    simp [Nat.mod_eq_of_lt hkv]
  have hpay : readLE (writeLE (writeByte r.bytes 0 v.Kind) 1 4 v.Raw) 1 4 = v.Raw := by
    unfold readLE writeLE
    rw [readBytes_writeBytes_self' _ _ _ _ (by rw [leBytes_length])
      (by rw [hwl1, leBytes_length]; omega)]
    rw [leVal_leBytes]
    exact Nat.mod_eq_of_lt (by simpa using hraw)
  cases v with
  | mk Kind Raw Ptr =>
    have h1 : ¬ r.bytes.length < 1 := by omega
    have h5 : ¬ r.bytes.length < 5 := by omega
    simp only [] at htag hpay hk hptr
    subst hptr
    rcases hk with hk | hk <;> subst hk
    · simp only [KInt32, KFloat32] at htag hpay hwl2
      have hne : ¬ writeLE (writeByte r.bytes 0 0) 1 4 Raw = [] := by
        intro hemp
        rw [hemp] at hwl2
        simp at hwl2
        omega
      simp [hwl2, htag, hpay, KInt32, KFloat32, KPtr, h1, h5, hne]
    · simp only [KInt32, KFloat32] at htag hpay hwl2
      have hne : ¬ writeLE (writeByte r.bytes 0 1) 1 4 Raw = [] := by
        intro hemp
        rw [hemp] at hwl2
        simp at hwl2
        omega
      simp [hwl2, htag, hpay, KInt32, KFloat32, KPtr, h1, h5, hne]

/-- `StoreValue` of a Byte value writes only the tag byte: the payload
is never stored. -/
theorem Heap.StoreValue_byte (h : Heap) (p : Nat) (r : Region) (b : Nat)
    (hfind : h.find p = some r) :
    h.StoreValue p (ByteValue b) =
      (h.update p { r with bytes := writeByte r.bytes 0 KByte }, none) := by
  unfold Heap.StoreValue
  rw [hfind]
  simp [ByteValue, KByte, KInt32, KFloat32, KPtr]

/-- `LoadValue` of a Byte-tagged region yields Byte 0 regardless of the
stored value: the round trip loses the payload. -/
theorem Heap.LoadValue_byte (h : Heap) (p : Nat) (r : Region)
    (hfind : h.find p = some r) (hlen : 1 ≤ r.bytes.length) :
    (h.update p { r with bytes := writeByte r.bytes 0 KByte }).LoadValue p =
      .ok (ByteValue 0) := by
  have hfound := h.find_update_self p r { r with bytes := writeByte r.bytes 0 KByte } hfind
  unfold Heap.LoadValue
  rw [hfound]
  have hwl : (writeByte r.bytes 0 KByte).length = r.bytes.length := writeBytes_length _ _ _
  have htag : readByte (writeByte r.bytes 0 KByte) 0 = KByte := by
    unfold writeByte
    rw [readByte_writeBytes_self0 _ _ (by simp) (by simp; omega)]
    simp [KByte]
  simp only [KByte] at htag hwl
  have hne : ¬ writeByte r.bytes 0 7 = [] := by
    intro hemp
    rw [hemp] at hwl
    simp at hwl
    omega
  have hne2 : ¬ r.bytes = [] := by
    intro hemp
    rw [hemp] at hlen
    simp at hlen
  simp [hwl, htag, KByte, KInt32, KFloat32, KPtr, ByteValue, hne, hne2]

/-! ## Claim C1 -/

/-- C1, counterexample.  STOREH of `Byte 5` at a live five-byte region
writes only the tag byte (the `StoreValue` switch has no Byte case), and
the following LOADH pushes `Byte 0`, not `Byte 5`: the scalar round
trip fails for the Byte kind. -/
theorem C1_counterexample :
    execute faZero
        ⟨0, [], true, [⟨[], sentinel, [PtrValue 100, ByteValue 5]⟩],
          ⟨[(100, ⟨[9, 9, 9, 9, 9], none⟩)]⟩, [], [], [], []⟩ 30 =
      .ok ⟨0, [], true, [⟨[], sentinel, []⟩],
            ⟨[(100, ⟨[7, 9, 9, 9, 9], none⟩)]⟩, [], [], [], []⟩ ∧
    execute faZero
        ⟨0, [], true, [⟨[], sentinel, [PtrValue 100]⟩],
          ⟨[(100, ⟨[7, 9, 9, 9, 9], none⟩)]⟩, [], [], [], []⟩ 29 =
      .ok ⟨0, [], true, [⟨[], sentinel, [ByteValue 0]⟩],
            ⟨[(100, ⟨[7, 9, 9, 9, 9], none⟩)]⟩, [], [], [], []⟩ ∧
    ByteValue 0 ≠ ByteValue 5 := by
  exact ⟨rfl, rfl, by decide⟩

/-- C1 (amended): for a value of kind Int32 or Float32 and a live
region of at least five bytes, STOREH writes the tag byte at offset 0
and the payload at offset 1, and a subsequent LOADH at the same address
pushes the same value again.  For a Byte value, STOREH writes only the
tag byte (no payload is stored) and a subsequent LOADH pushes Byte 0,
so the round trip holds for Byte only when the stored byte is 0. -/
theorem C1_store_load_roundtrip (fa : FloatArith) (s : VMState) (C : List StackFrame)
    (f : StackFrame) (S : List Value) (p : Nat) (r : Region)
    (hcs : s.CallStack = C ++ [f]) (hfind : s.Heap.find p = some r)
    (hlen : 5 ≤ r.bytes.length) :
    (∀ v : Value, v.Kind = KInt32 ∨ v.Kind = KFloat32 → v.Raw < 2 ^ 32 → v.Ptr = 0 →
      f.LocalStack = S ++ [PtrValue p, v] →
      execute fa s 30 =
        .ok { s with
                CallStack := C ++ [{ f with LocalStack := S }],
                Heap := s.Heap.update p
                  { r with bytes := writeLE (writeByte r.bytes 0 v.Kind) 1 4 v.Raw } }) ∧
    (∀ (v : Value) (s2 : VMState) (C2 : List StackFrame) (f2 : StackFrame) (S2 : List Value),
      v.Kind = KInt32 ∨ v.Kind = KFloat32 → v.Raw < 2 ^ 32 → v.Ptr = 0 →
      s2.Heap = s.Heap.update p
        { r with bytes := writeLE (writeByte r.bytes 0 v.Kind) 1 4 v.Raw } →
      s2.CallStack = C2 ++ [f2] → f2.LocalStack = S2 ++ [PtrValue p] →
      execute fa s2 29 =
        .ok { s2 with CallStack := C2 ++ [{ f2 with LocalStack := S2 ++ [v] }] }) ∧
    (∀ b : Nat, f.LocalStack = S ++ [PtrValue p, ByteValue b] →
      execute fa s 30 =
        .ok { s with
                CallStack := C ++ [{ f with LocalStack := S }],
                Heap := s.Heap.update p { r with bytes := writeByte r.bytes 0 KByte } }) ∧
    (∀ (s2 : VMState) (C2 : List StackFrame) (f2 : StackFrame) (S2 : List Value),
      s2.Heap = s.Heap.update p { r with bytes := writeByte r.bytes 0 KByte } →
      s2.CallStack = C2 ++ [f2] → f2.LocalStack = S2 ++ [PtrValue p] →
      execute fa s2 29 =
        .ok { s2 with CallStack := C2 ++ [{ f2 with LocalStack := S2 ++ [ByteValue 0] }] }) := by
  refine ⟨?_, ?_, ?_, ?_⟩
  · intro v hk hraw hptr hst
    have h1 : f.LocalStack = (S ++ [PtrValue p]) ++ [v] := by simp [hst]
    have hp1 := s.pop_concat C f (S ++ [PtrValue p]) v hcs h1
    have hp2 := VMState.pop_concat
      { s with CallStack := C ++ [{ f with LocalStack := S ++ [PtrValue p] }] }
      C { f with LocalStack := S ++ [PtrValue p] } S (PtrValue p) rfl rfl
    have hsv := Heap.StoreValue_scalar s.Heap p r v hfind hlen hk
    simp only [PtrValue, KPtr] at hp1 hp2
    simp [execute, Bind.bind, Except.bind, hp1, hp2, Value.asPtr, PtrValue, KPtr, hsv]
  · intro v s2 C2 f2 S2 hk hraw hptr hheap hcs2 hst2
    have hp1 := s2.pop_concat C2 f2 S2 (PtrValue p) hcs2 hst2
    have hlv := Heap.LoadValue_scalar s.Heap p r v hfind hlen hk hraw hptr
    rw [← hheap] at hlv
    simp only [PtrValue, KPtr] at hp1
    simp [execute, Bind.bind, Except.bind, hp1, Value.asPtr, PtrValue, KPtr, hlv,
      VMState.push]
  · intro b hst
    have h1 : f.LocalStack = (S ++ [PtrValue p]) ++ [ByteValue b] := by simp [hst]
    have hp1 := s.pop_concat C f (S ++ [PtrValue p]) (ByteValue b) hcs h1
    have hp2 := VMState.pop_concat
      { s with CallStack := C ++ [{ f with LocalStack := S ++ [PtrValue p] }] }
      C { f with LocalStack := S ++ [PtrValue p] } S (PtrValue p) rfl rfl
    have hsv := Heap.StoreValue_byte s.Heap p r b hfind
    simp only [PtrValue, KPtr, ByteValue, KByte] at hp1 hp2 hsv
    simp [execute, Bind.bind, Except.bind, hp1, hp2, Value.asPtr, PtrValue, KPtr,
      KByte, hsv]
  · intro s2 C2 f2 S2 hheap hcs2 hst2
    have hp1 := s2.pop_concat C2 f2 S2 (PtrValue p) hcs2 hst2
    have hlv := Heap.LoadValue_byte s.Heap p r hfind (by omega)
    rw [← hheap] at hlv
    simp only [PtrValue, KPtr, ByteValue, KByte] at hp1 hlv
    simp [execute, Bind.bind, Except.bind, hp1, Value.asPtr, PtrValue, KPtr, KByte,
      ByteValue, hlv, VMState.push]

/-- Witness for `C1_store_load_roundtrip`: a concrete Int32 round trip
through a live five-byte region at address 100. -/
theorem C1_store_load_roundtrip_witness :
    execute faZero
        ⟨0, [], true, [⟨[], sentinel, [PtrValue 100, Int32Value 42]⟩],
          ⟨[(100, ⟨[9, 9, 9, 9, 9], none⟩)]⟩, [], [], [], []⟩ 30 =
      .ok ⟨0, [], true, [⟨[], sentinel, []⟩],
            ⟨[(100, ⟨[0, 42, 0, 0, 0], none⟩)]⟩, [], [], [], []⟩ ∧
    execute faZero
        ⟨0, [], true, [⟨[], sentinel, [PtrValue 100]⟩],
          ⟨[(100, ⟨[0, 42, 0, 0, 0], none⟩)]⟩, [], [], [], []⟩ 29 =
      .ok ⟨0, [], true, [⟨[], sentinel, [Int32Value 42]⟩],
            ⟨[(100, ⟨[0, 42, 0, 0, 0], none⟩)]⟩, [], [], [], []⟩ := by
  constructor
  · have h := (C1_store_load_roundtrip faZero
      ⟨0, [], true, [⟨[], sentinel, [PtrValue 100, Int32Value 42]⟩],
        ⟨[(100, ⟨[9, 9, 9, 9, 9], none⟩)]⟩, [], [], [], []⟩
      [] ⟨[], sentinel, [PtrValue 100, Int32Value 42]⟩ [] 100 ⟨[9, 9, 9, 9, 9], none⟩
      rfl rfl (by decide)).1 (Int32Value 42) (Or.inl rfl) (by decide) rfl rfl
    exact h.trans rfl
  · have h := (C1_store_load_roundtrip faZero
      ⟨0, [], true, [⟨[], sentinel, [PtrValue 100]⟩],
        ⟨[(100, ⟨[9, 9, 9, 9, 9], none⟩)]⟩, [], [], [], []⟩
      [] ⟨[], sentinel, [PtrValue 100]⟩ [] 100 ⟨[9, 9, 9, 9, 9], none⟩
      rfl rfl (by decide)).2.1 (Int32Value 42)
      ⟨0, [], true, [⟨[], sentinel, [PtrValue 100]⟩],
        ⟨[(100, ⟨[0, 42, 0, 0, 0], none⟩)]⟩, [], [], [], []⟩
      [] ⟨[], sentinel, [PtrValue 100]⟩ [] (Or.inl rfl) (by decide) rfl (by decide) rfl rfl
    exact h.trans rfl

/-! ## Claim C4 -/

/-- C4, counterexample.  `StoreValue` writes the tag byte at offset 0
before its bounds check: storing an Int32 into a two-byte region
returns the out-of-bounds error, yet the region's tag byte has already
been overwritten (9 became 0), so the heap is not left unchanged. -/
theorem C4_counterexample :
    Heap.StoreValue ⟨[(100, ⟨[9, 9], none⟩)]⟩ 100 (Int32Value 1) =
      (⟨[(100, ⟨[0, 9], none⟩)]⟩, some "Memory access out of bounds") ∧
    (⟨[(100, ⟨[0, 9], none⟩)]⟩ : Heap) ≠ ⟨[(100, ⟨[9, 9], none⟩)]⟩ := by
  exact ⟨rfl, by decide⟩

/-- C4 (amended): every failing `SetArrayElement` (dead address, wrong
tag, out-of-bounds index, element-kind mismatch, unsupported element
kind) returns its error with the heap unchanged.  A failing
`StoreValue` leaves the heap unchanged when the address is dead, but
when it fails its bounds check it has already overwritten the tag byte
at offset 0 of the target region.  (For regions produced by the
page-rounding allocator the bounds check cannot fail, so the mutating
error path is unreachable from the interpreter; it is still the
behaviour of the operation itself.) -/
theorem C4_error_state :
    (∀ (h : Heap) (p : Nat) (i : Int) (v : Value) (h' : Heap) (e : String),
      h.SetArrayElement p i v = (h', some e) → h' = h) ∧
    (∀ (h : Heap) (p : Nat) (v : Value) (h' : Heap) (e : String),
      h.StoreValue p v = (h', some e) →
      (h.find p = none ∧ h' = h) ∨
      (∃ r, h.find p = some r ∧ e = "Memory access out of bounds" ∧
        h' = h.update p { r with bytes := writeByte r.bytes 0 v.Kind })) := by
  constructor
  · intro h p i v h' e hset
    unfold Heap.SetArrayElement at hset
    rcases hf : h.find p with _ | r <;> rw [hf] at hset
    · simp at hset
      exact hset.1.symm
    · simp only [] at hset
      split at hset
      · simp at hset
        exact hset.1.symm
      · split at hset
        · simp at hset
          exact hset.1.symm
        · split at hset
          · simp at hset
            exact hset.1.symm
          · split at hset
            · simp at hset
              exact hset.1.symm
            · split at hset
              · simp at hset
              · split at hset
                · simp at hset
                · simp at hset
                  exact hset.1.symm
  · intro h p v h' e hset
    unfold Heap.StoreValue at hset
    rcases hf : h.find p with _ | r <;> rw [hf] at hset
    · simp at hset
      exact Or.inl ⟨rfl, hset.1.symm⟩
    · simp only [] at hset
      repeat' split at hset
      all_goals
        first
          | (simp at hset
             exact Or.inr ⟨r, rfl, hset.2.symm, hset.1.symm⟩)
          | simp at hset

/-- Witness for `C4_error_state`: a wrong-tag `SetArrayElement` leaves
the one-region heap unchanged, and the bounds-failing `StoreValue` of
the counterexample is exactly the tag-byte overwrite. -/
theorem C4_error_state_witness :
    ((⟨[(100, ⟨[9], none⟩)]⟩ : Heap) = ⟨[(100, ⟨[9], none⟩)]⟩) ∧
    ((⟨[(100, ⟨[9, 9], none⟩)]⟩ : Heap).find 100 = none ∧
        (⟨[(100, ⟨[0, 9], none⟩)]⟩ : Heap) = ⟨[(100, ⟨[9, 9], none⟩)]⟩ ∨
      ∃ r, (⟨[(100, ⟨[9, 9], none⟩)]⟩ : Heap).find 100 = some r ∧
        "Memory access out of bounds" = "Memory access out of bounds" ∧
        (⟨[(100, ⟨[0, 9], none⟩)]⟩ : Heap) =
          (⟨[(100, ⟨[9, 9], none⟩)]⟩ : Heap).update 100
            { r with bytes := writeByte r.bytes 0 (Int32Value 1).Kind }) := by
  constructor
  · exact C4_error_state.1 ⟨[(100, ⟨[9], none⟩)]⟩ 100 0 (Int32Value 1)
      ⟨[(100, ⟨[9], none⟩)]⟩ "Not an array" rfl
  · exact C4_error_state.2 ⟨[(100, ⟨[9, 9], none⟩)]⟩ 100 (Int32Value 1)
      ⟨[(100, ⟨[0, 9], none⟩)]⟩ "Memory access out of bounds" rfl

/-! ## Claim C6 -/

/-- `AllocateString` always succeeds at the fresh address and the
string loads back (for lengths below 2^31, as stored in the signed
32-bit length field). -/
theorem Heap.AllocateString_spec (h : Heap) (sb : Bytes) :
    ∃ h1 : Heap, h.AllocateString sb = .ok (h.freshAddr, h1) ∧
      (sb.length < 2 ^ 31 → h1.LoadString h.freshAddr = .ok sb) := by
  have hpages : (5 + sb.length + pageSize - 1) / pageSize ≠ 0 := by
    unfold pageSize
    omega
  have hcap : 5 + sb.length ≤ ((5 + sb.length + pageSize - 1) / pageSize) * pageSize := by
    unfold pageSize
    omega
  have hfresh := fun e he => h.not_mem_freshAddr e he
  have hfind0 := h.find_insert_self h.freshAddr
    ⟨List.replicate ((5 + sb.length + pageSize - 1) / pageSize * pageSize) 0, none⟩ hfresh
  unfold Heap.AllocateString Heap.Allocate
  rw [if_neg hpages]
  simp only [Bind.bind, Except.bind, hfind0]
  refine ⟨_, rfl, ?_⟩
  intro hlen
  set m0 : Bytes := List.replicate ((5 + sb.length + pageSize - 1) / pageSize * pageSize) 0 with hm0
  have hm0len : m0.length = (5 + sb.length + pageSize - 1) / pageSize * pageSize := by
    rw [hm0]
    exact List.length_replicate _ _
  set m1 := writeByte m0 0 KString with hm1
  set m2 := writeLE m1 1 4 sb.length with hm2
  set m3 := writeBytes m2 5 sb with hm3
  have hl1 : m1.length = m0.length := writeBytes_length _ _ _
  have hl2 : m2.length = m0.length := by rw [hm2]; unfold writeLE; rw [writeBytes_length, hl1]
  have hl3 : m3.length = m0.length := by rw [hm3, writeBytes_length, hl2]
  have hfind1 := Heap.find_update_self (h.insert h.freshAddr ⟨m0, none⟩) h.freshAddr
    ⟨m0, none⟩ ⟨m3, none⟩ hfind0
  unfold Heap.LoadString
  rw [hfind1]
  have htag : readByte m3 0 = KString := by
    rw [hm3, readByte_writeBytes_lt _ _ _ _ (by omega), hm2]
    unfold writeLE
    rw [readByte_writeBytes_lt _ _ _ _ (by omega), hm1]
    unfold writeByte
    rw [readByte_writeBytes_self0 _ _ (by simp) (by simp [hm0len]; unfold pageSize; omega)]
    simp [KString]
  have hlenread : readLE m3 1 4 = sb.length := by
    rw [hm3]
    unfold readLE
    rw [readBytes_writeBytes_ge _ _ _ _ _ (by omega), hm2]
    unfold writeLE
    rw [readBytes_writeBytes_self' _ _ _ _ (by rw [leBytes_length])
      (by rw [leBytes_length, hl1, hm0len]; unfold pageSize; omega)]
    rw [leVal_leBytes]
    exact Nat.mod_eq_of_lt (by omega)
  have hbody : readBytes m3 5 sb.length = sb := by
    rw [hm3]
    exact readBytes_writeBytes_self' _ _ _ _ rfl (by rw [hl2, hm0len]; omega)
  have hint : int32OfRaw sb.length = (sb.length : Int) := by
    unfold int32OfRaw
    rw [if_pos (by omega)]
    congr 1
    omega
  have hbound : ¬ ((m3.length : Int) < 5 + (sb.length : Int)) := by
    rw [hl3, hm0len]
    unfold pageSize
    omega
  simp [htag, hlenread, hint, hbound, hbody, KString]

/-- C6, counterexample.  With the string "A" (byte 65) at address 100
pushed first and "B" (byte 66) at address 200 pushed second, STR_CAT
pops "B" first and produces "BA" ([66, 65]): the **first**-popped
string is the left operand, where the claim demands the second-popped
to be ("AB" = [65, 66]). -/
theorem C6_counterexample :
    (VMState.executeSystemCall
        ⟨0, [], true, [⟨[], sentinel, [PtrValue 100, PtrValue 200]⟩],
          ⟨[(100, ⟨[3, 1, 0, 0, 0, 65], none⟩), (200, ⟨[3, 1, 0, 0, 0, 66], none⟩)]⟩,
          [], [], [], []⟩ 1).map
        (fun s' => (s'.Heap.LoadString 4302, s'.CallStack)) =
      .ok (.ok [66, 65], [⟨[], sentinel, [PtrValue 4302]⟩]) ∧
    [66, 65] ≠ ([65] ++ [66]) := by
  constructor
  · obtain ⟨h', halloc, hload⟩ := Heap.AllocateString_spec
      ⟨[(100, ⟨[3, 1, 0, 0, 0, 65], none⟩), (200, ⟨[3, 1, 0, 0, 0, 66], none⟩)]⟩ [66, 65]
    have hp1 := VMState.pop_concat
      ⟨0, [], true, [⟨[], sentinel, [PtrValue 100, PtrValue 200]⟩],
        ⟨[(100, ⟨[3, 1, 0, 0, 0, 65], none⟩), (200, ⟨[3, 1, 0, 0, 0, 66], none⟩)]⟩,
        [], [], [], []⟩
      [] ⟨[], sentinel, [PtrValue 100, PtrValue 200]⟩ [PtrValue 100] (PtrValue 200)
      rfl rfl
    have hp2 := VMState.pop_concat
      ⟨0, [], true, [⟨[], sentinel, [PtrValue 100]⟩],
        ⟨[(100, ⟨[3, 1, 0, 0, 0, 65], none⟩), (200, ⟨[3, 1, 0, 0, 0, 66], none⟩)]⟩,
        [], [], [], []⟩
      [] ⟨[], sentinel, [PtrValue 100]⟩ [] (PtrValue 100) rfl rfl
    have hL1 : Heap.LoadString
        ⟨[(100, ⟨[3, 1, 0, 0, 0, 65], none⟩), (200, ⟨[3, 1, 0, 0, 0, 66], none⟩)]⟩ 200 =
        .ok [66] := rfl
    have hL2 : Heap.LoadString
        ⟨[(100, ⟨[3, 1, 0, 0, 0, 65], none⟩), (200, ⟨[3, 1, 0, 0, 0, 66], none⟩)]⟩ 100 =
        .ok [65] := rfl
    have hfa : Heap.freshAddr
        ⟨[(100, ⟨[3, 1, 0, 0, 0, 65], none⟩), (200, ⟨[3, 1, 0, 0, 0, 66], none⟩)]⟩ = 4302 := rfl
    have hload2 := hload (by decide)
    rw [hfa] at halloc hload2
    simp only [PtrValue, KPtr] at hp1 hp2
    simp [VMState.executeSystemCall, Bind.bind, Except.bind, hp1, hp2, Value.asPtr,
      PtrValue, KPtr, hL1, hL2, halloc, VMState.push, Except.map, hload2]
  · decide

/-- C6 (amended): the STR_CAT system call (id 1) pops two Ptr values,
allocates a new string equal to the concatenation in which the string
referenced by the **first**-popped pointer is the left operand, and
pushes a Ptr to the new string. -/
theorem C6_strcat (s : VMState) (C : List StackFrame) (f : StackFrame) (S : List Value)
    (p1 p2 : Nat) (s1 s2 : Bytes)
    (hcs : s.CallStack = C ++ [f])
    (hst : f.LocalStack = S ++ [PtrValue p2, PtrValue p1])
    (h1 : s.Heap.LoadString p1 = .ok s1) (h2 : s.Heap.LoadString p2 = .ok s2)
    (hlen : s1.length + s2.length < 2 ^ 31) :
    ∃ h' : Heap,
      s.executeSystemCall 1 =
        .ok { s with
                Heap := h',
                CallStack := C ++ [{ f with LocalStack := S ++ [PtrValue s.Heap.freshAddr] }] } ∧
      h'.LoadString s.Heap.freshAddr = .ok (s1 ++ s2) := by
  obtain ⟨h1', halloc, hload⟩ := s.Heap.AllocateString_spec (s1 ++ s2)
  have hstep1 : f.LocalStack = (S ++ [PtrValue p2]) ++ [PtrValue p1] := by simp [hst]
  have hp1 := s.pop_concat C f (S ++ [PtrValue p2]) (PtrValue p1) hcs hstep1
  have hp2 := VMState.pop_concat
    { s with CallStack := C ++ [{ f with LocalStack := S ++ [PtrValue p2] }] }
    C { f with LocalStack := S ++ [PtrValue p2] } S (PtrValue p2) rfl rfl
  simp only [PtrValue, KPtr] at hp1 hp2
  refine ⟨h1', ?_, hload (by simpa using hlen)⟩
  simp [VMState.executeSystemCall, Bind.bind, Except.bind, hp1, hp2, Value.asPtr,
    PtrValue, KPtr, h1, h2, halloc, VMState.push]

/-- Witness for `C6_strcat` at the concrete heap of the counterexample:
concatenating first-popped [66] with second-popped [65] yields a new
string [66, 65] at the fresh address. -/
theorem C6_strcat_witness :
    ∃ h' : Heap,
      VMState.executeSystemCall
          ⟨0, [], true, [⟨[], sentinel, [PtrValue 100, PtrValue 200]⟩],
            ⟨[(100, ⟨[3, 1, 0, 0, 0, 65], none⟩), (200, ⟨[3, 1, 0, 0, 0, 66], none⟩)]⟩,
            [], [], [], []⟩ 1 =
        .ok ⟨0, [], true, [⟨[], sentinel, [PtrValue 4302]⟩], h',
              [], [], [], []⟩ ∧
      h'.LoadString 4302 = .ok ([66] ++ [65]) := by
  obtain ⟨h', hrun, hload⟩ := C6_strcat
    ⟨0, [], true, [⟨[], sentinel, [PtrValue 100, PtrValue 200]⟩],
      ⟨[(100, ⟨[3, 1, 0, 0, 0, 65], none⟩), (200, ⟨[3, 1, 0, 0, 0, 66], none⟩)]⟩,
      [], [], [], []⟩
    [] ⟨[], sentinel, [PtrValue 100, PtrValue 200]⟩ [] 200 100 [66] [65]
    rfl rfl rfl rfl (by decide)
  exact ⟨h', hrun, hload⟩

/-! ## Claim C9 -/

/-- Lookup after a replacing update, when the key was present: the
mapped-over list holds the new value at the key. -/
theorem lookupMap_map_replace_self {α β : Type} [DecidableEq α]
    (m : List (α × β)) (k : α) (v : β)
    (hsome : (m.find? (fun e => e.1 = k)).isSome = true) :
    lookupMap (m.map (fun e => if e.1 = k then (k, v) else e)) k = some v := by
  induction m with
  | nil => simp at hsome
  | cons e rest ih =>
    unfold lookupMap
    simp only [List.map_cons]
    by_cases he : e.1 = k
    · rw [if_pos he, List.find?_cons_of_pos _ (by simp)]
      rfl
    · rw [if_neg he, List.find?_cons_of_neg _ (by simpa using he)]
      have hsome2 : (rest.find? (fun e => e.1 = k)).isSome = true := by
        rw [List.find?_cons_of_neg _ (by simpa using he)] at hsome
        exact hsome
      have hrest := ih hsome2
      unfold lookupMap at hrest
      exact hrest

/-- A replacing update of key `k` does not change lookups of other
keys. -/
theorem lookupMap_map_replace_ne {α β : Type} [DecidableEq α]
    (m : List (α × β)) (k k2 : α) (v : β) (hne : k2 ≠ k) :
    lookupMap (m.map (fun e => if e.1 = k then (k, v) else e)) k2 =
      lookupMap m k2 := by
  have ihfold : ∀ l : List (α × β),
      lookupMap (l.map (fun e => if e.1 = k then (k, v) else e)) k2 = lookupMap l k2 →
      (List.find? (fun e => e.1 = k2) (l.map (fun e => if e.1 = k then (k, v) else e))).map
          (fun e => e.2) =
        (List.find? (fun e => e.1 = k2) l).map (fun e => e.2) := by
    intro l hl
    unfold lookupMap at hl
    exact hl
  induction m with
  | nil => rfl
  | cons e rest ih =>
    unfold lookupMap
    simp only [List.map_cons]
    by_cases he : e.1 = k
    · have h1 : ¬ k = k2 := fun h => hne h.symm
      have h2 : ¬ e.1 = k2 := by rw [he]; exact h1
      rw [if_pos he, List.find?_cons_of_neg _ (by simpa using h1),
        List.find?_cons_of_neg _ (by simpa using h2)]
      exact ihfold rest ih
    · by_cases he2 : e.1 = k2
      · rw [if_neg he, List.find?_cons_of_pos _ (by simpa using he2),
          List.find?_cons_of_pos _ (by simpa using he2)]
      · rw [if_neg he, List.find?_cons_of_neg _ (by simpa using he2),
          List.find?_cons_of_neg _ (by simpa using he2)]
        exact ihfold rest ih

/-- Go-map assignment followed by lookup of the same key yields the
assigned value. -/
theorem lookupMap_insertMap_self {α β : Type} [DecidableEq α]
    (m : List (α × β)) (k : α) (v : β) :
    lookupMap (insertMap m k v) k = some v := by
  unfold insertMap
  split
  · rename_i hsome
    exact lookupMap_map_replace_self m k v hsome
  · rename_i hnone
    have hnone2 : m.find? (fun e => e.1 = k) = none := by
      rcases hf : m.find? (fun e => e.1 = k) with _ | e
      · exact hf
      · exact absurd (by rw [hf]; rfl) hnone
    unfold lookupMap
    rw [List.find?_append, hnone2, Option.none_or,
      List.find?_cons_of_pos _ (by simp)]
    rfl

/-- Go-map assignment does not change lookups of other keys. -/
theorem lookupMap_insertMap_ne {α β : Type} [DecidableEq α]
    (m : List (α × β)) (k k2 : α) (v : β) (hne : k2 ≠ k) :
    lookupMap (insertMap m k v) k2 = lookupMap m k2 := by
  unfold insertMap
  split
  · exact lookupMap_map_replace_ne m k k2 v hne
  · have hk2 : ¬ k = k2 := fun h => hne h.symm
    unfold lookupMap
    rw [List.find?_append, List.find?_cons_of_neg _ (by simpa using hk2),
      List.find?_nil, Option.or_none]

/-- Every binding the body loop adds to the labels map is the
instruction index of its label item: the count of instruction items in
some prefix of the body; bindings not added were already present. -/
theorem recordBody_lookup (items : List BodyItem) :
    ∀ (idx : Nat) (body : List Instruction) (labels : List (String × Nat))
      (L : String) (i : Nat),
      lookupMap (recordBody items idx body labels).2 L = some i →
      (∃ pre post, items = pre ++ BodyItem.label L :: post ∧
        i = idx + instrCount pre) ∨
      lookupMap labels L = some i := by
  induction items with
  | nil =>
    intro idx body labels L i h
    exact Or.inr h
  | cons it rest ih =>
    intro idx body labels L i h
    cases it with
    | label n =>
      simp only [recordBody] at h
      rcases ih idx body (insertMap labels n idx) L i h with ⟨pre, post, h1, h2⟩ | hl
      · exact Or.inl ⟨BodyItem.label n :: pre, post, by rw [h1]; rfl,
          by simpa [instrCount] using h2⟩
      · by_cases hL : L = n
        · subst hL
          rw [lookupMap_insertMap_self] at hl
          have hidx : idx = i := by simpa using hl
          subst hidx
          exact Or.inl ⟨[], rest, rfl, by simp [instrCount]⟩
        · rw [lookupMap_insertMap_ne labels n L idx hL] at hl
          exact Or.inr hl
    | instr j =>
      simp only [recordBody] at h
      rcases ih (idx + 1) (body ++ [j]) labels L i h with ⟨pre, post, h1, h2⟩ | hl
      · refine Or.inl ⟨BodyItem.instr j :: pre, post, by rw [h1]; rfl, ?_⟩
        simp only [instrCount] at h2 ⊢
        omega
      · exact Or.inr hl

/-- C9: the labels map built by the function-body parse loop binds each
label to an instruction index inside the body (the number of
instruction items preceding the label marker), and every jump opcode
(JMP, IJNE, IJE, FJNE, FJE) resolves its label operand in that map and
emits the looked-up index itself as the big-endian 16-bit operand
(uint16 truncation aside): the emitted bytes carry the instruction
index, with no conversion to a byte offset. -/
theorem C9_jump_labels :
    (∀ (items : List BodyItem) (L : String) (i : Nat),
        lookupMap (recordBody items 0 [] []).2 L = some i →
        ∃ pre post, items = pre ++ BodyItem.label L :: post ∧
          i = instrCount pre) ∧
    (∀ (pf : String → Except String Nat) (ctx : GenCtx) (inst : Instruction)
        (t : Token) (ops0 : List Token) (i : Nat) (bs : Bytes),
        inst.Opcode = 11 ∨ inst.Opcode = 12 ∨ inst.Opcode = 13 ∨
          inst.Opcode = 14 ∨ inst.Opcode = 15 →
        inst.Operands = t :: ops0 →
        lookupMap ctx.labels t.Literal = some i →
        generateInstruction pf ctx inst = .ok bs →
        ∃ rest, bs = inst.Opcode % 256 :: (be16 (i % 2 ^ 16) ++ rest)) := by
  constructor
  · intro items L i h
    rcases recordBody_lookup items 0 [] [] L i h with ⟨pre, post, h1, h2⟩ | hl
    · exact ⟨pre, post, h1, by simpa using h2⟩
    · exact absurd hl (by simp [lookupMap, List.find?])
  · intro pf ctx inst t ops0 i bs hop hh hl hg
    rcases hop with hOp | hOp | hOp | hOp | hOp
    · simp [generateInstruction, hOp, hh, hl] at hg
      exact ⟨[], by simp [hOp, ← hg]⟩
    · rcases ops0 with _ | ⟨vt, _ | ⟨w, ops2⟩⟩ <;>
        simp [generateInstruction, hOp, hh, hl] at hg
      split at hg
      · rcases hv : parseInt32M vt.Literal with e | value <;>
          simp [hv, Bind.bind, Except.bind] at hg
        exact ⟨be32 (u32 value), by simp [hOp, ← hg]⟩
      · split at hg
        · rcases hv : pf vt.Literal with e | bits <;>
            simp [hv, Bind.bind, Except.bind] at hg
          exact ⟨be32 (bits % 2 ^ 32), by simp [hOp, ← hg]⟩
        · simp at hg
    · rcases ops0 with _ | ⟨vt, _ | ⟨w, ops2⟩⟩ <;>
        simp [generateInstruction, hOp, hh, hl] at hg
      split at hg
      · rcases hv : parseInt32M vt.Literal with e | value <;>
          simp [hv, Bind.bind, Except.bind] at hg
        exact ⟨be32 (u32 value), by simp [hOp, ← hg]⟩
      · split at hg
        · rcases hv : pf vt.Literal with e | bits <;>
            simp [hv, Bind.bind, Except.bind] at hg
          exact ⟨be32 (bits % 2 ^ 32), by simp [hOp, ← hg]⟩
        · simp at hg
    · rcases ops0 with _ | ⟨vt, _ | ⟨w, ops2⟩⟩ <;>
        simp [generateInstruction, hOp, hh, hl] at hg
      split at hg
      · rcases hv : parseInt32M vt.Literal with e | value <;>
          simp [hv, Bind.bind, Except.bind] at hg
        exact ⟨be32 (u32 value), by simp [hOp, ← hg]⟩
      · split at hg
        · rcases hv : pf vt.Literal with e | bits <;>
            simp [hv, Bind.bind, Except.bind] at hg
          exact ⟨be32 (bits % 2 ^ 32), by simp [hOp, ← hg]⟩
        · simp at hg
    · rcases ops0 with _ | ⟨vt, _ | ⟨w, ops2⟩⟩ <;>
        simp [generateInstruction, hOp, hh, hl] at hg
      split at hg
      · rcases hv : parseInt32M vt.Literal with e | value <;>
          simp [hv, Bind.bind, Except.bind] at hg
        exact ⟨be32 (u32 value), by simp [hOp, ← hg]⟩
      · split at hg
        · rcases hv : pf vt.Literal with e | bits <;>
            simp [hv, Bind.bind, Except.bind] at hg
          exact ⟨be32 (bits % 2 ^ 32), by simp [hOp, ← hg]⟩
        · simp at hg

/-- Witness for `C9_jump_labels`: in the body `halt; loop: dup`, the
label `loop` is bound to instruction index 1, and a `jmp loop` with
that labels map emits exactly `[11, 0, 1]` — opcode plus the index 1
as a big-endian 16-bit operand. -/
theorem C9_jump_labels_witness :
    (∃ pre post,
        [BodyItem.instr ⟨0, []⟩, BodyItem.label "loop", BodyItem.instr ⟨31, []⟩] =
          pre ++ BodyItem.label "loop" :: post ∧ 1 = instrCount pre) ∧
    (∃ rest, [11, 0, 1] = 11 % 256 :: (be16 (1 % 2 ^ 16) ++ rest)) := by
  constructor
  · exact C9_jump_labels.1
      [BodyItem.instr ⟨0, []⟩, BodyItem.label "loop", BodyItem.instr ⟨31, []⟩]
      "loop" 1 rfl
  · exact C9_jump_labels.2 (fun _ => .error "") ⟨[("loop", 1)], [], []⟩
      ⟨11, [⟨.IDENT, "loop"⟩]⟩ ⟨.IDENT, "loop"⟩ [] 1 [11, 0, 1]
      (Or.inl rfl) rfl rfl rfl

end GVM
